import Mathlib

set_option maxRecDepth 16000

/-!
Verification development for the clinical-case chat application
(`core/chat`): a shallow embedding of its instruction-resolution,
prompt-templating, summary-assembly and session state-machine code,
with theorems checking the documented behaviour.

Conventions of the embedding:
  * Python strings are Lean `String`s; character-level operations work on
    `List Char` (`String.data`).
  * Python `None`-able values are `Option`s; raised exceptions become
    `Except` results or explicit error constructors.
  * Database rows (`Case`, `Instruction`, `CaseHistory`) are structures;
    a table is a `List` of rows; Django query-sets are list filters.
  * The external OpenAI client is an oracle parameter
    `call : String → String → String → Nat → Except Fault String`
    (model id, instructions, input text, max tokens).
  * Library functions the code leans on (`str.format`, `json.loads`,
    `json.dumps`, `unicodedata` accent folding, `django slugify`) are
    modelled executably; the accent table covers the Latin/Polish
    repertoire this application works with.
-/

namespace Przypadek

/-! ## Python character and string primitives -/

/-- Whitespace recognised by Python's `str.strip()` (ASCII repertoire). -/
def isPyWhitespace (c : Char) : Bool :=
  c = ' ' || c = '\t' || c = '\n' || c = '\r' || c.toNat = 11 || c.toNat = 12

/-- Drop leading whitespace, as the left half of `str.strip()`. -/
def pyLtrim (l : List Char) : List Char := l.dropWhile isPyWhitespace

/-- Drop trailing whitespace, as the right half of `str.strip()`. -/
def pyRtrim (l : List Char) : List Char := (l.reverse.dropWhile isPyWhitespace).reverse

/-- Python `str.strip()` on a character list. -/
def pyStripChars (l : List Char) : List Char := pyRtrim (pyLtrim l)

/-- Python `str.strip()`. -/
def pyStrip (s : String) : String := String.mk (pyStripChars s.data)

/-- Lower-casing table for the non-ASCII letters this application meets
(Python `str.lower()` restricted to the Latin/Polish repertoire). -/
def lowerPairs : List (Char × Char) :=
  [('Ą', 'ą'), ('Ć', 'ć'), ('Ę', 'ę'), ('Ł', 'ł'), ('Ń', 'ń'), ('Ó', 'ó'),
   ('Ś', 'ś'), ('Ź', 'ź'), ('Ż', 'ż')]

/-- Python `str.lower()` on one character. -/
def pyLowerChar (c : Char) : Char :=
  if 'A' ≤ c ∧ c ≤ 'Z' then Char.ofNat (c.toNat + 32)
  else ((lowerPairs.lookup c).getD c)

/-- Python `str.lower()`. -/
def pyLower (s : String) : String := String.mk (s.data.map pyLowerChar)

/-- Python `str.upper()` on one character. -/
def pyUpperChar (c : Char) : Char :=
  if 'a' ≤ c ∧ c ≤ 'z' then Char.ofNat (c.toNat - 32)
  else (((lowerPairs.map fun p => (p.2, p.1)).lookup c).getD c)

/-- Python `str.upper()`. -/
def pyUpper (s : String) : String := String.mk (s.data.map pyUpperChar)

/-- Python truthiness default for strings: `s or d`. -/
def pyOrStr (s d : String) : String := if s = "" then d else s

/-- Does `pat` occur at the head of `l`? (List-level `startswith`.) -/
def startsWithL : List Char → List Char → Bool
  | [], _ => true
  | _ :: _, [] => false
  | p :: ps, c :: cs => p = c && startsWithL ps cs

/-- Does `pat` occur anywhere in `l`? (Python's substring `in`.) -/
def hasOcc (pat : List Char) : List Char → Bool
  | [] => startsWithL pat []
  | c :: t => startsWithL pat (c :: t) || hasOcc pat t

/-- Substring test between two strings, Python `needle in hay`. -/
def strContains (hay needle : String) : Bool := hasOcc needle.data hay.data

/-- An ASCII letter. -/
def isAsciiAlphaChar (c : Char) : Bool :=
  ('a' ≤ c && c ≤ 'z') || ('A' ≤ c && c ≤ 'Z')

/-- An ASCII digit. -/
def isAsciiDigitChar (c : Char) : Bool := '0' ≤ c && c ≤ '9'

/-- Helper for Python `str.title()`: the flag records whether the previous
character was a letter. -/
def pyTitleGo : Bool → List Char → List Char
  | _, [] => []
  | prevAlpha, c :: t =>
    if isAsciiAlphaChar c then
      (if prevAlpha then pyLowerChar c else pyUpperChar c) :: pyTitleGo true t
    else c :: pyTitleGo false t

/-- Python `str.title()` (ASCII repertoire; only a dead default path of
`LABELS.get(stage, stage.title())` uses it). -/
def pyTitle (s : String) : String := String.mk (pyTitleGo false s.data)

/-! ## Accent stripping (`_strip_accents` in `views/utils.py`)

The source computes `unicodedata.normalize("NFD", s)` and removes the
combining marks (category `Mn`).  The table below is the NFD decomposition
restricted to the precomposed Latin letters this application meets; note
that `ł`/`Ł` have no canonical decomposition and survive unchanged, which
the repository's own test (`zażółć gęślą jaźń` ↦ `zazołc gesla jazn`)
records. -/

/-- Base letter of the precomposed Latin letters used here (NFD first
character). -/
def nfdBaseTable : List (Char × Char) :=
  [('ą', 'a'), ('ć', 'c'), ('ę', 'e'), ('ń', 'n'), ('ó', 'o'), ('ś', 's'),
   ('ź', 'z'), ('ż', 'z'),
   ('Ą', 'A'), ('Ć', 'C'), ('Ę', 'E'), ('Ń', 'N'), ('Ó', 'O'), ('Ś', 'S'),
   ('Ź', 'Z'), ('Ż', 'Z'),
   ('á', 'a'), ('à', 'a'), ('â', 'a'), ('ä', 'a'), ('ã', 'a'), ('å', 'a'),
   ('é', 'e'), ('è', 'e'), ('ê', 'e'), ('ë', 'e'),
   ('í', 'i'), ('ì', 'i'), ('î', 'i'), ('ï', 'i'),
   ('ú', 'u'), ('ù', 'u'), ('û', 'u'), ('ü', 'u'),
   ('ò', 'o'), ('ô', 'o'), ('ö', 'o'), ('õ', 'o'),
   ('ý', 'y'), ('ñ', 'n'), ('ç', 'c'),
   ('Á', 'A'), ('À', 'A'), ('Â', 'A'), ('Ä', 'A'), ('Ã', 'A'), ('Å', 'A'),
   ('É', 'E'), ('È', 'E'), ('Ê', 'E'), ('Ë', 'E'),
   ('Í', 'I'), ('Ì', 'I'), ('Î', 'I'), ('Ï', 'I'),
   ('Ú', 'U'), ('Ù', 'U'), ('Û', 'U'), ('Ü', 'U'),
   ('Ò', 'O'), ('Ô', 'O'), ('Ö', 'O'), ('Õ', 'O'),
   ('Ý', 'Y'), ('Ñ', 'N'), ('Ç', 'C')]

/-- NFD decomposition followed by removal of combining marks, per
character: a combining mark (U+0300–U+036F) vanishes, a precomposed letter
becomes its base letter, anything else stays. -/
def stripAccentsChar (c : Char) : List Char :=
  if 768 ≤ c.toNat ∧ c.toNat ≤ 879 then []
  else match nfdBaseTable.lookup c with
  | some b => [b]
  | none => [c]

/-- Model of `_strip_accents` (`views/utils.py`): empty input short-circuits
to the empty string, otherwise each character is decomposed and its
combining marks are dropped. -/
def strip_accents (s : String) : String :=
  if s = "" then "" else String.mk ((s.data.map stripAccentsChar).flatten)

/-- Model of `_check_can_proceed` (`views/utils.py`): accent-stripped,
lower-cased substring test of any target phrase against the bot reply. -/
def check_can_proceed (botText : String) (targets : List String) : Bool :=
  if botText = "" then false
  else
    let txt := pyLower (strip_accents botText)
    targets.any fun t => strContains txt (pyLower (strip_accents t))

/-! ## Python `str.format` (the subset the instruction bodies use)

`str.format(**kwargs)` over bodies whose replacement fields are plain
names: `\x7b\x7b` and `\x7d\x7d` are literal braces, `\x7bname\x7d` is a
field, a lone brace is a `ValueError`, a field name absent from the
keyword arguments is a `KeyError`. -/

inductive FmtTok where
  | lit (text : List Char)
  | field (name : List Char)
deriving DecidableEq

/-- The exception `str.format` raises: a missing keyword (`KeyError`) or a
malformed template (`ValueError`). -/
inductive TemplateErr where
  | keyError (name : String)
  | valueError
deriving DecidableEq

/-- Read a field name up to the closing brace; a nested opening brace is a
parse failure. -/
def splitAtBrace : List Char → Option (List Char × List Char)
  | [] => none
  | c :: t =>
    if c = '\x7d' then some ([], t)
    else if c = '\x7b' then none
    else (splitAtBrace t).map fun p => (c :: p.1, p.2)

/-- Fuel-driven tokenizer for `str.format` templates. -/
def parseFmtF : Nat → List Char → Option (List FmtTok)
  | 0, _ => none
  | _ + 1, [] => some []
  | fuel + 1, c :: t =>
    if c = '\x7b' then
      match t with
      | [] => none
      | d :: t' =>
        if d = '\x7b' then (parseFmtF fuel t').map fun ts => .lit ['\x7b'] :: ts
        else
          match splitAtBrace (d :: t') with
          | none => none
          | some (name, rest) => (parseFmtF fuel rest).map fun ts => .field name :: ts
    else if c = '\x7d' then
      match t with
      | d :: t' =>
        if d = '\x7d' then (parseFmtF fuel t').map fun ts => .lit ['\x7d'] :: ts
        else none
      | [] => none
    else (parseFmtF fuel t).map fun ts => .lit [c] :: ts

/-- Tokenize a `str.format` template (enough fuel for the whole input). -/
def parseFmt (l : List Char) : Option (List FmtTok) := parseFmtF (l.length + 1) l

/-- Substitute the keyword arguments into the token list; the first field
name missing from `env` raises its `KeyError`. -/
def formatToks (env : List (String × String)) : List FmtTok → Except TemplateErr String
  | [] => .ok ""
  | .lit s :: t => (formatToks env t).map fun r => String.mk s ++ r
  | .field n :: t =>
    match env.lookup (String.mk n) with
    | some v => (formatToks env t).map fun r => v ++ r
    | none => .error (.keyError (String.mk n))

/-- Python `body.format(**env)` for plain-name replacement fields. -/
def pyFormat (body : String) (env : List (String × String)) : Except TemplateErr String :=
  match parseFmt body.data with
  | none => .error .valueError
  | some toks => formatToks env toks

/-! ## Data model (`models.py`) -/

/-- Row of the `Case` table: identity plus the per-stage canonical texts.
`id` stands for the database primary key. -/
structure Case where
  id : Nat
  slug : String
  name : String
  content : String
  diagnostics_norm : String
  prelim_dx_raw : String
  meds_norm : String
  reco_norm : String
  dispo_norm : String
deriving DecidableEq

/-- Row of the `Instruction` table: stage-scoped versioned prompt template,
optionally bound to a case (`caseId = none` is a global default).
`updatedAt` is the `updated_at` timestamp as a number. -/
structure Instruction where
  id : Nat
  caseId : Option Nat
  stage : String
  body : String
  active : Bool
  version : Nat
  updatedAt : Nat
deriving DecidableEq

/-! ## `services.py` -/

/-- Strict "comes first under `order_by("-version", "-updated_at")`":
`a` sorts strictly before `b`. -/
def betterInstr (a b : Instruction) : Bool :=
  decide (b.version < a.version ∨ (a.version = b.version ∧ b.updatedAt < a.updatedAt))

/-- First row of a query-set ordered by `("-version", "-updated_at")`:
the earliest listed row no other row sorts strictly before. -/
def firstByOrder : List Instruction → Option Instruction
  | [] => none
  | i :: t =>
    match firstByOrder t with
    | none => some i
    | some j => if betterInstr j i then some j else some i

/-- Model of `resolve_instruction` (`services.py`): the best active
case-specific instruction for the stage, else the best active global one,
else nothing. -/
def resolve_instruction (stage : String) (c : Case) (db : List Instruction) :
    Option Instruction :=
  match firstByOrder (db.filter fun i =>
      i.caseId == some c.id && i.stage == stage && i.active) with
  | some i => some i
  | none => firstByOrder (db.filter fun i =>
      i.caseId == none && i.stage == stage && i.active)

/-- Model of `case_norm_for_stage` (`services.py`): fixed stage→field
dictionary (four distinct keys) with `""` as the `.get` default. -/
def case_norm_for_stage (c : Case) (stage : String) : String :=
  if stage = "diagnostics" then pyOrStr c.diagnostics_norm ""
  else if stage = "meds" then pyOrStr c.meds_norm ""
  else if stage = "reco" then pyOrStr c.reco_norm ""
  else if stage = "dispo" then pyOrStr c.dispo_norm ""
  else ""

/-- The `user_answers` / `bot_answers` argument of
`render_instruction_body`: a sequence of strings, one string, or `None`. -/
inductive Answers where
  | ofList (items : List String)
  | ofStr (s : String)
  | pyNone
deriving DecidableEq

/-- The history coercion of `render_instruction_body`: a list or tuple is
joined with newlines, otherwise `str(x or "")`. -/
def answersJoin : Answers → String
  | .ofList items => String.intercalate "\n" items
  | .ofStr s => s
  | .pyNone => ""

/-- Model of `render_instruction_body` (`services.py`): substitute the five
fixed placeholders into the instruction body; the `Except` carries the
template exception `str.format` raises. -/
def render_instruction_body (inst : Instruction) (c : Case)
    (user_answers bot_answers : Answers) (actual_msg : String) :
    Except TemplateErr String :=
  let user_hist := answersJoin user_answers
  let bot_hist := answersJoin bot_answers
  let case_norm := case_norm_for_stage c inst.stage
  let prelim_dx := pyOrStr c.prelim_dx_raw ""
  pyFormat inst.body
    [("case_norm", case_norm), ("prelim_dx", prelim_dx),
     ("user_answers", user_hist), ("bot_answers", bot_hist),
     ("actual_msg", actual_msg)]

/-! ## JSON (`json.loads` / `json.dumps`, as the summary flow uses them)

Executable model of the strict JSON reader: numbers keep their digit
groups (sign, integer digits, fraction digits, exponent characters) so
that Python truthiness of a parsed number is exact, objects keep their
pairs in input order, and any trailing garbage fails the parse, as
`json.loads` does. -/

inductive Json where
  | null
  | bool (b : Bool)
  | num (neg : Bool) (intDigits fracDigits expChars : List Char)
  | str (s : String)
  | arr (xs : List Json)
  | obj (kvs : List (String × Json))

/-- Python truthiness of a parsed JSON value (`not data`):
`None`, `False`, zero numbers, empty strings, lists and dicts are falsy. -/
def jsonFalsy : Json → Bool
  | .null => true
  | .bool b => !b
  | .num _ intDigits fracDigits _ => (intDigits ++ fracDigits).all (· = '0')
  | .str s => s = ""
  | .arr xs => xs.isEmpty
  | .obj kvs => kvs.isEmpty

/-- Dictionary lookup on a parsed JSON object, Python `d.get(k)`. -/
def jsonObjGet (kvs : List (String × Json)) (k : String) : Option Json :=
  kvs.lookup k

/-- JSON whitespace (space, tab, newline, carriage return). -/
def isJWs (c : Char) : Bool := c = ' ' || c = '\t' || c = '\n' || c = '\r'

/-- Skip JSON whitespace. -/
def skipJWs : List Char → List Char
  | [] => []
  | c :: t => if isJWs c then skipJWs t else c :: t

/-- Value of one hexadecimal digit. -/
def hexVal (c : Char) : Option Nat :=
  if '0' ≤ c && c ≤ '9' then some (c.toNat - 48)
  else if 'a' ≤ c && c ≤ 'f' then some (c.toNat - 87)
  else if 'A' ≤ c && c ≤ 'F' then some (c.toNat - 55)
  else none

/-- Body of a JSON string after the opening quote: returns the decoded
characters and the rest after the closing quote.  Control characters are
rejected, escapes are decoded, `\u` takes four hex digits. -/
def parseJStr : Nat → List Char → Option (List Char × List Char)
  | 0, _ => none
  | _ + 1, [] => none
  | fuel + 1, c :: t =>
    if c = '"' then some ([], t)
    else if c = '\\' then
      match t with
      | [] => none
      | e :: t2 =>
        if e = 'u' then
          match t2 with
          | a :: b :: c2 :: d :: t3 =>
            match hexVal a, hexVal b, hexVal c2, hexVal d with
            | some va, some vb, some vc, some vd =>
              (parseJStr fuel t3).map fun p =>
                (Char.ofNat (va * 4096 + vb * 256 + vc * 16 + vd) :: p.1, p.2)
            | _, _, _, _ => none
          | _ => none
        else
          match
            (if e = '"' then some '"'
             else if e = '\\' then some '\\'
             else if e = '/' then some '/'
             else if e = 'b' then some (Char.ofNat 8)
             else if e = 'f' then some (Char.ofNat 12)
             else if e = 'n' then some '\n'
             else if e = 'r' then some '\r'
             else if e = 't' then some '\t'
             else none) with
          | some d => (parseJStr fuel t2).map fun p => (d :: p.1, p.2)
          | none => none
    else if c.toNat < 32 then none
    else (parseJStr fuel t).map fun p => (c :: p.1, p.2)

/-- Longest run of ASCII digits at the head. -/
def takeDigits : List Char → List Char × List Char
  | [] => ([], [])
  | c :: t =>
    if isAsciiDigitChar c then
      let p := takeDigits t
      (c :: p.1, p.2)
    else ([], c :: t)

/-- A JSON number at the head: `-? (0 | [1-9][0-9]*) (.[0-9]+)?
([eE][+-]?[0-9]+)?`. -/
def parseJNum (cs : List Char) : Option (Json × List Char) :=
  let (neg, cs1) : Bool × List Char :=
    match cs with
    | '-' :: t => (true, t)
    | _ => (false, cs)
  match cs1 with
  | [] => none
  | c :: rest =>
    (if c = '0' then some (['0'], rest)
     else if isAsciiDigitChar c then
       let p := takeDigits rest
       some (c :: p.1, p.2)
     else none).bind fun (intDigits, cs2) =>
    (match cs2 with
     | '.' :: t =>
       match takeDigits t with
       | ([], _) => none
       | (fd, cs3) => some (fd, cs3)
     | _ => some ([], cs2)).bind fun (fracDigits, cs3) =>
    (match cs3 with
     | e :: t =>
       if e = 'e' || e = 'E' then
         let (sgn, t2) : List Char × List Char :=
           match t with
           | s :: t2 => if s = '+' || s = '-' then ([s], t2) else ([], t)
           | [] => ([], [])
         match takeDigits t2 with
         | ([], _) => none
         | (ed, cs4) => some (e :: sgn ++ ed, cs4)
       else some ([], cs3)
     | [] => some ([], [])).map fun (expChars, cs4) =>
    (Json.num neg intDigits fracDigits expChars, cs4)

/-- Comma-separated JSON array items up to the closing bracket, given the
value parser; called after `[` when the array is non-empty. -/
def parseJArrItems (pv : List Char → Option (Json × List Char)) :
    Nat → List Char → Option (List Json × List Char)
  | 0, _ => none
  | fuel + 1, cs =>
    match pv cs with
    | none => none
    | some (v, rest) =>
      match skipJWs rest with
      | ',' :: r2 =>
        (parseJArrItems pv fuel r2).map fun p => (v :: p.1, p.2)
      | ']' :: r2 => some ([v], r2)
      | _ => none

/-- Comma-separated JSON object members up to the closing brace, given the
value parser; called after the opening brace when the object is
non-empty. -/
def parseJObjItems (pv : List Char → Option (Json × List Char)) :
    Nat → List Char → Option (List (String × Json) × List Char)
  | 0, _ => none
  | fuel + 1, cs =>
    match skipJWs cs with
    | '"' :: t =>
      match parseJStr (t.length + 1) t with
      | none => none
      | some (key, r1) =>
        match skipJWs r1 with
        | ':' :: r2 =>
          match pv r2 with
          | none => none
          | some (v, r3) =>
            match skipJWs r3 with
            | ',' :: r4 =>
              (parseJObjItems pv fuel r4).map fun p =>
                ((String.mk key, v) :: p.1, p.2)
            | c :: r4 =>
              if c = '\x7d' then some ([(String.mk key, v)], r4) else none
            | [] => none
        | _ => none
    | _ => none

/-- One JSON value at the head (leading whitespace allowed). -/
def parseJValue : Nat → List Char → Option (Json × List Char)
  | 0, _ => none
  | fuel + 1, cs =>
    match skipJWs cs with
    | [] => none
    | c :: t =>
      if c = 'n' then
        match t with
        | 'u' :: 'l' :: 'l' :: r => some (.null, r)
        | _ => none
      else if c = 't' then
        match t with
        | 'r' :: 'u' :: 'e' :: r => some (.bool true, r)
        | _ => none
      else if c = 'f' then
        match t with
        | 'a' :: 'l' :: 's' :: 'e' :: r => some (.bool false, r)
        | _ => none
      else if c = '"' then
        (parseJStr (t.length + 1) t).map fun p => (.str (String.mk p.1), p.2)
      else if c = '[' then
        match skipJWs t with
        | c2 :: r2 =>
          if c2 = ']' then some (.arr [], r2)
          else
            (parseJArrItems (parseJValue fuel) (t.length + 1) t).map fun p =>
              (.arr p.1, p.2)
        | [] => none
      else if c = '\x7b' then
        match skipJWs t with
        | c2 :: r2 =>
          if c2 = '\x7d' then some (.obj [], r2)
          else
            (parseJObjItems (parseJValue fuel) (t.length + 1) t).map fun p =>
              (.obj p.1, p.2)
        | [] => none
      else if c = '-' || isAsciiDigitChar c then parseJNum (c :: t)
      else none

/-- Model of `json.loads`: one value, then only whitespace, else `None`
(standing for the `json.JSONDecodeError` path). -/
def jsonLoadsChars (cs : List Char) : Option Json :=
  match parseJValue (cs.length + 1) cs with
  | some (v, rest) => if skipJWs rest = [] then some v else none
  | none => none

/-- Model of `json.loads` on a string. -/
def jsonLoads (s : String) : Option Json := jsonLoadsChars s.data

/-! ### `json.dumps(..., ensure_ascii=False, indent=2)` -/

/-- Escape one character for a JSON string literal (`ensure_ascii=False`:
only the quote, the backslash and control characters are escaped). -/
def jsonEscapeChar (c : Char) : List Char :=
  if c = '"' then ['\\', '"']
  else if c = '\\' then ['\\', '\\']
  else if c = '\n' then ['\\', 'n']
  else if c = '\t' then ['\\', 't']
  else if c = '\r' then ['\\', 'r']
  else if c.toNat = 8 then ['\\', 'b']
  else if c.toNat = 12 then ['\\', 'f']
  else if c.toNat < 32 then
    ['\\', 'u', '0', '0',
     (if c.toNat / 16 = 1 then '1' else '0'),
     (Nat.digitChar (c.toNat % 16))]
  else [c]

/-- Serialize a string as a JSON literal. -/
def jsonDumpStr (s : String) : String :=
  String.mk ('"' :: (s.data.map jsonEscapeChar).flatten ++ ['"'])

/-- The spaces of one indentation level (`indent=2`). -/
def jsonIndent (lvl : Nat) : String := String.mk (List.replicate (2 * lvl) ' ')

mutual

/-- Serialize one JSON value at an indentation level, as
`json.dumps(..., ensure_ascii=False, indent=2)` lays it out. -/
def jsonDumpVal (lvl : Nat) : Json → String
  | .null => "null"
  | .bool b => if b then "true" else "false"
  | .num neg intDigits fracDigits expChars =>
    String.mk ((if neg then ['-'] else []) ++ intDigits ++
      (if fracDigits.isEmpty then [] else '.' :: fracDigits) ++ expChars)
  | .str s => jsonDumpStr s
  | .arr [] => "[]"
  | .arr (x :: xs) =>
    "[\n" ++ jsonIndent (lvl + 1) ++ jsonDumpItems (lvl + 1) (x :: xs) ++
      "\n" ++ jsonIndent lvl ++ "]"
  | .obj [] => "\x7b\x7d"
  | .obj (kv :: kvs) =>
    "\x7b\n" ++ jsonIndent (lvl + 1) ++ jsonDumpMembers (lvl + 1) (kv :: kvs) ++
      "\n" ++ jsonIndent lvl ++ "\x7d"

/-- Serialize array items, separated by `,\n` plus indentation. -/
def jsonDumpItems (lvl : Nat) : List Json → String
  | [] => ""
  | [x] => jsonDumpVal lvl x
  | x :: y :: xs =>
    jsonDumpVal lvl x ++ ",\n" ++ jsonIndent lvl ++ jsonDumpItems lvl (y :: xs)

/-- Serialize object members, separated by `,\n` plus indentation. -/
def jsonDumpMembers (lvl : Nat) : List (String × Json) → String
  | [] => ""
  | [kv] => jsonDumpStr kv.1 ++ ": " ++ jsonDumpVal lvl kv.2
  | kv :: kv2 :: kvs =>
    jsonDumpStr kv.1 ++ ": " ++ jsonDumpVal lvl kv.2 ++ ",\n" ++
      jsonIndent lvl ++ jsonDumpMembers lvl (kv2 :: kvs)

end

/-- Model of `json.dumps(v, ensure_ascii=False, indent=2)`. -/
def jsonDumps (v : Json) : String := jsonDumpVal 0 v

/-! ## `views/utils.py`: the OpenAI call with fallback -/

/-- Faults the external call can raise: `AuthenticationError` (a subclass
of `OpenAIError`), any other `OpenAIError`, a `RuntimeError`, or any other
exception class. The string is `str(e)`. -/
inductive Fault where
  | authentication (msg : String)
  | openaiService (msg : String)
  | runtimeFault (msg : String)
  | unexpected (msg : String)
deriving DecidableEq

/-- Membership in the `OpenAIError` class hierarchy (what
`except OpenAIError` catches). -/
def Fault.isOpenAI : Fault → Bool
  | .authentication _ => true
  | .openaiService _ => true
  | .runtimeFault _ => false
  | .unexpected _ => false

/-- The `str(e)` of a fault. -/
def Fault.message : Fault → String
  | .authentication m => m
  | .openaiService m => m
  | .runtimeFault m => m
  | .unexpected m => m

/-- The primary model identifier. -/
def OPENAI_MODEL_PRIMARY : String := "gpt-4.1"

/-- The fallback model identifier. -/
def OPENAI_MODEL_FALLBACK : String := "gpt-4.1-mini"

/-- The external text-generation service: model id, instructions, input
text and token budget to either a reply text or a fault. -/
abbrev Oracle := String → String → String → Nat → Except Fault String

/-- The keyword list `_call_openai_with_fallback` greps the lower-cased
fault message for. -/
def availabilityKeywords : List String :=
  ["not found", "unsupported", "permission", "does not exist", "unknown model"]

/-- Is the fault message recognizable as a model-availability problem? -/
def isAvailabilityFault (msg : String) : Bool :=
  availabilityKeywords.any fun k => strContains (pyLower msg) k

/-- Model of `_call_openai_with_fallback` (plus `_make_openai_client`):
the second component lists the model identifiers actually attempted.
`apiKeyOk = false` is the missing-credential `RuntimeError`. -/
def call_openai_with_fallback (apiKeyOk : Bool) (call : Oracle)
    (instructions inputText : String) (maxTokens : Nat) :
    Except Fault String × List String :=
  if apiKeyOk = false then
    (.error (.runtimeFault "Brak OPENAI_API_KEY w konfiguracji serwera."), [])
  else
    match call OPENAI_MODEL_PRIMARY instructions inputText maxTokens with
    | .ok text => (.ok text, [OPENAI_MODEL_PRIMARY])
    | .error f =>
      if f.isOpenAI && isAvailabilityFault f.message then
        (call OPENAI_MODEL_FALLBACK instructions inputText maxTokens,
         [OPENAI_MODEL_PRIMARY, OPENAI_MODEL_FALLBACK])
      else (.error f, [OPENAI_MODEL_PRIMARY])

/-- The fixed authentication-fault reply of `_bot_reply_stage_db`. -/
def authErrorReply : String :=
  "Błąd uwierzytelnienia z OpenAI. Sprawdź `OPENAI_API_KEY` w .env i uprawnienia do modelu w konsoli OpenAI."

/-- The fixed `OpenAIError` reply of `_bot_reply_stage_db`. -/
def openaiErrorReply : String := "Błąd usługi OpenAI. Spróbuj ponownie za chwilę."

/-- The fixed generic-exception reply of `_bot_reply_stage_db`. -/
def internalErrorReply : String := "Wewnętrzny błąd bota. Spróbuj ponownie."

/-- Model of `_bot_reply_stage_db` together with
`_render_instruction_from_db` (`views/utils.py`): the per-turn reply flow.
An unresolved instruction raises `Http404` and a template failure raises
`KeyError`/`ValueError`; both are exceptions outside the specific
`except` clauses, so both land in the final `except Exception` handler
and yield the generic internal-error reply. -/
def bot_reply_stage_db (apiKeyOk : Bool) (call : Oracle) (db : List Instruction)
    (stage : String) (c : Case) (userText : String)
    (userAnswers botAnswers : Answers) (actualMsg : String) : String :=
  match resolve_instruction stage c db with
  | none => internalErrorReply
  | some inst =>
    match render_instruction_body inst c userAnswers botAnswers actualMsg with
    | .error _ => internalErrorReply
    | .ok instructions =>
      match (call_openai_with_fallback apiKeyOk call instructions userText 500).1 with
      | .ok text => text
      | .error (.authentication _) => authErrorReply
      | .error (.openaiService _) => openaiErrorReply
      | .error (.runtimeFault m) => "Konfiguracja: " ++ m
      | .error (.unexpected _) => internalErrorReply

/-! ## `views/utils.py`: stages, labels, pass phrases -/

/-- The fixed stage order `STAGE_ORDER`. -/
def STAGE_ORDER : List String :=
  ["diagnostics", "first_exam", "meds", "reco", "dispo", "summary"]

/-- The label map `LABELS`, read through
`LABELS.get(stage, stage.title())`. -/
def labelFor (stage : String) : String :=
  if stage = "diagnostics" then "Diagnostyka"
  else if stage = "first_exam" then "Rozpoznanie wstępne"
  else if stage = "meds" then "Leczenie ostre"
  else if stage = "reco" then "Zalecenia po leczeniu"
  else if stage = "dispo" then "Skierowanie / Dispo"
  else if stage = "summary" then "Podsumowanie"
  else pyTitle stage

/-- The `templates` entry of the `STAGES` table. -/
def stageTemplate (stage : String) : String :=
  if stage = "summary" then "chat/summary.html" else "chat/stage.html"

/-- The `targets_done` entry of the `STAGES` table: empty for the summary
stage, the single pass phrase elsewhere. -/
def targetsDone (stage : String) : List String :=
  if stage = "summary" then [] else ["zaliczam"]

/-! ## `views/utils.py`: summary assembly -/

/-- One conversation turn as the session stores it
(`{"role": ..., "text": ...}`; both keys are always set by the flow). -/
structure Msg where
  role : String
  text : String
deriving DecidableEq

/-- One record of `_build_stage_payload`. -/
structure StageRecord where
  stage : String
  label : String
  conversation : List Msg
  user_last_answer : String
  assistant_last_answer : String
deriving DecidableEq

/-- Last `text` of a message with the given role
(`next((... for m in reversed(messages) if ...), "")`). -/
def lastTextByRole (msgs : List Msg) (role : String) : String :=
  ((msgs.reverse.find? fun m => m.role == role).map Msg.text).getD ""

/-- The session's per-stage conversation store, a dict keyed by stage. -/
abbrev Chats := List (String × List Msg)

/-- Model of `_build_stage_payload` (`views/utils.py`): one record per
non-summary stage in `STAGE_ORDER` order; absent stages contribute an
empty conversation. -/
def build_stage_payload (chats : Chats) : List StageRecord :=
  (STAGE_ORDER.filter fun s => s ≠ "summary").map fun stage =>
    let messages := (chats.lookup stage).getD []
    { stage := stage
      label := labelFor stage
      conversation := messages
      user_last_answer := lastTextByRole messages "user"
      assistant_last_answer := lastTextByRole messages "assistant" }

/-- Model of `_build_transcript` (`views/utils.py`): one section per
record, headed `## label`, one `ROLE: text` line per message, sections
separated by a blank line, the whole stripped. -/
def build_transcript (payload : List StageRecord) : String :=
  pyStrip (String.intercalate "\n\n" (payload.map fun st =>
    String.intercalate "\n" (("## " ++ st.label) ::
      st.conversation.map fun m => pyUpper m.role ++ ": " ++ m.text)))

/-! ## `views/utils.py`: `_extract_json_payload` -/

/-- The backtick character. -/
def backtickChar : Char := Char.ofNat 96

/-- The code-fence marker three backticks long. -/
def fence3 : List Char := [backtickChar, backtickChar, backtickChar]

/-- Model of `re.sub(r"^```[a-zA-Z]*\n", "", text)`: remove an opening
code fence with an optional language tag; no match leaves the text
unchanged. -/
def stripLeadingFence (cs : List Char) : List Char :=
  if startsWithL fence3 cs then
    match (cs.drop 3).dropWhile isAsciiAlphaChar with
    | c :: t => if c = '\n' then t else cs
    | [] => cs
  else cs

/-- The part before the LAST occurrence of the fence marker, or `none`
when no occurrence exists. -/
def cutAtLastFence : List Char → Option (List Char)
  | [] => none
  | c :: t =>
    match cutAtLastFence t with
    | some r => some (c :: r)
    | none => if startsWithL fence3 (c :: t) then some [] else none

/-- Model of `text.rsplit("```", 1)[0]`. -/
def rsplitFence (cs : List Char) : List Char := (cutAtLastFence cs).getD cs

/-- Model of `_extract_json_payload` (`views/utils.py`): strip, remove a
leading code fence and everything from the last fence marker on, strip
again and parse; `none` is the `JSONDecodeError` / empty-input path. -/
def extract_json_payload (raw : String) : Option Json :=
  if raw = "" then none
  else
    let t1 := pyStripChars raw.data
    let t2 := if startsWithL fence3 t1 then rsplitFence (stripLeadingFence t1) else t1
    jsonLoadsChars (pyStripChars t2)

/-! ## `views/utils.py`: `generate_summary_assessment` -/

/-- The canonical-answers payload of `generate_summary_assessment`: note
the `first_exam` key draws from the raw preliminary-diagnosis field. -/
def canonicalAnswersPayload (c : Case) : List (String × String) :=
  [("diagnostics", pyOrStr c.diagnostics_norm ""),
   ("first_exam", pyOrStr c.prelim_dx_raw ""),
   ("meds", pyOrStr c.meds_norm ""),
   ("reco", pyOrStr c.reco_norm ""),
   ("dispo", pyOrStr c.dispo_norm "")]

/-- The canonical-answers payload as the JSON value `json.dumps`
serializes. -/
def canonicalAnswersJson (c : Case) : Json :=
  .obj ((canonicalAnswersPayload c).map fun p => (p.1, .str p.2))

/-- A conversation turn as a JSON value. -/
def msgJson (m : Msg) : Json :=
  .obj [("role", .str m.role), ("text", .str m.text)]

/-- A stage record as a JSON value, key order as the source dict literal
writes it. -/
def stageRecordJson (r : StageRecord) : Json :=
  .obj [("stage", .str r.stage), ("label", .str r.label),
        ("conversation", .arr (r.conversation.map msgJson)),
        ("user_last_answer", .str r.user_last_answer),
        ("assistant_last_answer", .str r.assistant_last_answer)]

/-- The dedented `SUMMARY_PROMPT_TEMPLATE` (`views/utils.py`). -/
def SUMMARY_PROMPT_TEMPLATE : String :=
  "\nJesteś klinicznym egzaminatorem oceniającym przebieg symulacji medycznej w języku polskim.\n" ++
  "Otrzymujesz pełen opis przypadku, kanoniczne odpowiedzi instruktora oraz kompletną transkrypcję rozmowy użytkownika z asystentem na kolejnych etapach.\n" ++
  "\nTwoje zadanie:\n" ++
  "1. Oceń, jak dobrze użytkownik poradził sobie z przypadkiem w kontekście kanonicznych odpowiedzi.\n" ++
  "2. Wypunktuj najmocniejsze i najsłabsze elementy podejścia użytkownika.\n" ++
  "3. Przygotuj jednozdaniowy werdykt i krótkie streszczenie (2-3 zdania) całości.\n" ++
  "\nInformacje o przypadku:\n" ++
  "- Nazwa: \x7bcase_name\x7d\n" ++
  "- Opis: \x7bcase_content\x7d\n" ++
  "- Wstępna diagnoza referencyjna: \x7bprelim_dx\x7d\n" ++
  "\nKanoniczne odpowiedzi instruktora (JSON):\n\x7bcanonical_answers\x7d\n" ++
  "\nHistoria etapów wraz z ostatnimi odpowiedziami (JSON):\n\x7bstage_payload\x7d\n" ++
  "\nPełny transkrypt rozmowy (podzielony na etapy):\n\x7btranscript\x7d\n" ++
  "\nZwróć wynik w czystym formacie JSON (UTF-8, bez komentarzy) dokładnie o strukturze:\n" ++
  "\x7b\x7b\n" ++
  "  \"score\": <liczba całkowita 0-100 opisująca procentowe zaliczenie>,\n" ++
  "  \"verdict\": \"krótki werdykt po polsku\",\n" ++
  "  \"summary\": \"2-3 zdania streszczające mocne i słabe strony po polsku\",\n" ++
  "  \"positives\": [\"lista\", \"najważniejszych\", \"mocnych stron\"],\n" ++
  "  \"negatives\": [\"lista\", \"obszarów\", \"do poprawy\"]\n" ++
  "\x7d\x7d\n" ++
  "\nJeśli nie jesteś w stanie dokonać oceny, zwróć JSON z wartością null dla wszystkich pól.\n"

/-- The transcript string `generate_summary_assessment` builds (with its
placeholder for an empty transcript). -/
def summaryTranscript (chats : Chats) : String :=
  pyOrStr (build_transcript (build_stage_payload chats)) "Brak historii rozmowy."

/-- The instructions string `generate_summary_assessment` sends: the
summary template with its six placeholders substituted (the fixed
template always formats cleanly; the error default is dead code). -/
def generate_summary_instructions (c : Case) (chats : Chats) : String :=
  match pyFormat SUMMARY_PROMPT_TEMPLATE
    [("case_name", c.name),
     ("case_content", pyOrStr c.content "Brak opisu."),
     ("prelim_dx", pyOrStr c.prelim_dx_raw "Brak diagnozy referencyjnej."),
     ("canonical_answers", jsonDumps (canonicalAnswersJson c)),
     ("stage_payload", jsonDumps (.arr ((build_stage_payload chats).map stageRecordJson))),
     ("transcript", summaryTranscript chats)] with
  | .ok s => s
  | .error _ => ""

/-- What `generate_summary_assessment` returns: the dict with
`error`/`raw` keys, or the dict with `data`/`raw` keys. -/
inductive SummaryResult where
  | failure (message raw : String)
  | success (data : Json) (raw : String)

/-- The fixed could-not-interpret message of
`generate_summary_assessment`. -/
def summaryParseErrorMsg : String := "Nie udało się zinterpretować odpowiedzi modelu."

/-- Model of `generate_summary_assessment` (`views/utils.py`). -/
def generate_summary_assessment (apiKeyOk : Bool) (call : Oracle) (c : Case)
    (chats : Chats) : SummaryResult :=
  let transcript := summaryTranscript chats
  let instructions := generate_summary_instructions c chats
  match (call_openai_with_fallback apiKeyOk call instructions transcript 700).1 with
  | .error (.authentication _) =>
    .failure "Błąd uwierzytelnienia z OpenAI. Sprawdź `OPENAI_API_KEY` i dostęp do modelu." ""
  | .error (.openaiService _) =>
    .failure "Błąd usługi OpenAI. Spróbuj ponownie później." ""
  | .error (.runtimeFault m) => .failure ("Konfiguracja: " ++ m) ""
  | .error (.unexpected _) =>
    .failure "Wewnętrzny błąd podczas generowania podsumowania." ""
  | .ok text =>
    let rawText := pyStrip text
    match extract_json_payload rawText with
    | none => .failure summaryParseErrorMsg rawText
    | some d =>
      if jsonFalsy d then .failure summaryParseErrorMsg rawText
      else .success d rawText

/-! ## `models.py`: slug derivation and uniqueness -/

/-- NFKD + `encode("ascii", "ignore")` on one character: decompose,
drop combining marks, drop what is still non-ASCII (so `ł` disappears,
as Django's `slugify` does to it). -/
def slugAsciiFold (c : Char) : List Char :=
  (stripAccentsChar c).filter fun d => d.toNat < 128

/-- A character `re.sub(r"[^\w\s-]", "", ...)` keeps. -/
def isSlugKeep (c : Char) : Bool :=
  isAsciiAlphaChar c || isAsciiDigitChar c || c = '_' || isPyWhitespace c || c = '-'

/-- Model of `re.sub(r"[-\s]+", "-", ...)`: each run of hyphens and
whitespace becomes one hyphen; the flag records being inside a run. -/
def collapseDashWs : Bool → List Char → List Char
  | _, [] => []
  | inRun, c :: t =>
    if isPyWhitespace c || c = '-' then
      if inRun then collapseDashWs true t else '-' :: collapseDashWs true t
    else c :: collapseDashWs false t

/-- A hyphen or underscore (the set `str.strip("-_")` removes). -/
def isDashUnderscore (c : Char) : Bool := c = '-' || c = '_'

/-- Model of `django.utils.text.slugify` (`allow_unicode=False`):
ASCII-fold, lower, drop what is not word/space/hyphen, collapse
hyphen/space runs to one hyphen, strip `-`/`_` from both ends. -/
def slugify (s : String) : String :=
  let ascii := (s.data.map slugAsciiFold).flatten
  let kept := (ascii.map pyLowerChar).filter isSlugKeep
  let collapsed := collapseDashWs false kept
  String.mk
    (((collapsed.dropWhile isDashUnderscore).reverse.dropWhile
      isDashUnderscore).reverse)

/-- Model of `Case.save` (`models.py`): derive the slug from the name,
truncated to 120 characters, only when no slug is set. -/
def caseSave (c : Case) : Case :=
  if c.slug = "" then { c with slug := (slugify c.name).take 120 } else c

/-- Save a new `Case` row into the table: `save()` runs, then the
database's `unique=True` constraint on `slug` rejects a duplicate. -/
def insertCase (db : List Case) (c0 : Case) : Except String (List Case) :=
  let c := caseSave c0
  if db.any fun d => d.slug == c.slug then
    .error "UNIQUE constraint failed: chat_case.slug"
  else .ok (db ++ [c])

/-! ## `views/chat_views.py` and `views/history_views.py` -/

/-- The conversational session keys `stage_view` works with. -/
structure Session where
  activeCaseSlug : Option String
  chats : Chats
  completedStages : List String
  canProceedToDx : Bool
  caseSaved : Bool
deriving DecidableEq

/-- A value of the persisted `chats` JSON of a `CaseHistory` row: a
per-stage conversation, or the special `__summary__` annotation. -/
inductive SavedVal where
  | conv (msgs : List Msg)
  | summaryNote (verdict summary score : Json)

/-- Row of the `CaseHistory` table. -/
structure CaseHistory where
  user : String
  caseId : Nat
  chats : List (String × SavedVal)
  completed_stages : List String
  is_completed : Bool

/-- Python dict assignment `d[k] = v`: replace in place, or append a new
key at the end. -/
def dictSet {α : Type} (d : List (String × α)) (k : String) (v : α) :
    List (String × α) :=
  if d.any fun p => p.1 == k then
    d.map fun p => if p.1 == k then (k, v) else p
  else d ++ [(k, v)]

/-- The `data` dict of the auto-save block:
`summary_payload.get("data", {}) or {}`.  A success result whose payload
is not a dict makes the following `data.get(...)` raise
`AttributeError` — the `none` of this function (the view has no handler
for it). -/
def summarySaveData : SummaryResult → Option (List (String × Json))
  | .failure _ _ => some []
  | .success (Json.obj kvs) _ => some kvs
  | .success _ _ => none

/-- The `chats_to_save` dict: a copy of the session chats with the
`__summary__` annotation added (`verdict`/`summary` default to `""`,
`score` to `None`). -/
def savedChats (chats : Chats) (kvs : List (String × Json)) :
    List (String × SavedVal) :=
  dictSet (chats.map fun p => (p.1, SavedVal.conv p.2)) "__summary__"
    (.summaryNote ((jsonObjGet kvs "verdict").getD (.str ""))
      ((jsonObjGet kvs "summary").getD (.str ""))
      ((jsonObjGet kvs "score").getD .null))

/-- HTTP method of a `stage_view` request. -/
inductive Method where
  | get
  | post
deriving DecidableEq

/-- Responses `stage_view` / `reset_case_view` can produce. -/
inductive Response where
  | notFound (msg : String)
  | redirectStage (caseSlug stage : String)
  | stagePage (template stage : String)
  | summaryPage (template : String) (caseSaved : Bool)
  | jsonRejected (err : String)
  | jsonReply (botText : String) (stageCompleted : Bool)
deriving DecidableEq

/-- Result of one view call: the saved session, the `CaseHistory` table
and the response. -/
structure StepOut where
  session : Session
  histories : List CaseHistory
  response : Response

/-- The non-terminal stages (`[s for s in STAGE_ORDER if s != "summary"]`). -/
def coreStages : List String := STAGE_ORDER.filter fun s => s ≠ "summary"

/-- The session reset run on a case switch (and by `reset_case_view`). -/
def resetSessionFor (slug : String) (s : Session) : Session :=
  { s with
    activeCaseSlug := some slug
    chats := []
    completedStages := []
    canProceedToDx := false
    caseSaved := false }

/-- Model of `stage_view` (`views/chat_views.py`).  `none` is the one
unhandled-exception path (summary auto-save when the parsed summary data
is not a dict); every other path returns the saved state and the
response. -/
def stage_view (apiKeyOk : Bool) (call : Oracle) (instrDb : List Instruction)
    (cases : List Case) (histories : List CaseHistory)
    (isAuth : Bool) (username : String) (method : Method) (isAjax : Bool)
    (message : String) (caseSlug stage : String) (s0 : Session) :
    Option StepOut :=
  if !STAGE_ORDER.contains stage then
    some ⟨s0, histories, .notFound "Nieznany etap"⟩
  else
    match cases.find? fun c => c.slug == caseSlug with
    | none => some ⟨s0, histories, .notFound "No Case matches the given query."⟩
    | some c =>
      let s1 := if s0.activeCaseSlug ≠ some c.slug then resetSessionFor c.slug s0 else s0
      let chats := s1.chats
      let completed := s1.completedStages
      let chat := (chats.lookup stage).getD []
      let stageCompleted := completed.contains stage
      if stage = "summary" then
        match coreStages.filter (fun s => !completed.contains s) with
        | m :: _ => some ⟨s1, histories, .redirectStage c.slug m⟩
        | [] =>
          let payload := generate_summary_assessment apiKeyOk call c chats
          if isAuth && !s1.caseSaved then
            match summarySaveData payload with
            | none => none
            | some kvs =>
              let row : CaseHistory :=
                { user := username
                  caseId := c.id
                  chats := savedChats chats kvs
                  completed_stages := completed
                  is_completed := true }
              some ⟨{ s1 with caseSaved := true }, histories ++ [row],
                .summaryPage (stageTemplate stage) true⟩
          else some ⟨s1, histories, .summaryPage (stageTemplate stage) s1.caseSaved⟩
      else if method = Method.get then
        some ⟨s1, histories, .stagePage (stageTemplate stage) stage⟩
      else if stageCompleted then
        some ⟨s1, histories,
          if isAjax then .jsonRejected "stage_completed"
          else .redirectStage c.slug stage⟩
      else
        let msg := pyStrip message
        let userOnly := (chat.filter fun m => m.role == "user").map Msg.text
        let botOnly := (chat.filter fun m => m.role == "assistant").map Msg.text
        some (if msg = "" then
          ⟨s1, histories,
            if isAjax then .jsonReply "" (completed.contains stage)
            else .redirectStage c.slug stage⟩
        else
          let botText := bot_reply_stage_db apiKeyOk call instrDb stage c msg
            (.ofList userOnly) (.ofList botOnly) msg
          let chat2 := chat ++ [⟨"user", msg⟩, ⟨"assistant", botText⟩]
          let chats2 := dictSet chats stage chat2
          let passed := check_can_proceed botText (targetsDone stage)
          let completed2 :=
            if passed && !completed.contains stage then completed ++ [stage]
            else completed
          let s2 :=
            { s1 with
              chats := chats2
              completedStages := completed2
              canProceedToDx := if passed then true else s1.canProceedToDx }
          ⟨s2, histories,
            if isAjax then .jsonReply botText (passed || completed2.contains stage)
            else .redirectStage c.slug stage⟩)

/-- Model of `reset_case_view` (`views/history_views.py`): reset the
session state for the case and redirect to diagnostics. -/
def reset_case_view (cases : List Case) (histories : List CaseHistory)
    (caseSlug : String) (s0 : Session) : StepOut :=
  match cases.find? fun c => c.slug == caseSlug with
  | none => ⟨s0, histories, .notFound "No Case matches the given query."⟩
  | some c => ⟨resetSessionFor c.slug s0, histories, .redirectStage c.slug "diagnostics"⟩

/-- The request-specific arguments of one `stage_view` call. -/
structure StageRequest where
  isAuth : Bool
  username : String
  method : Method
  isAjax : Bool
  message : String
  stage : String

/-- Run a sequence of `stage_view` requests against one case slug,
threading session and history table (a crashed request leaves both as
they were). -/
def runStageViews (apiKeyOk : Bool) (call : Oracle) (instrDb : List Instruction)
    (cases : List Case) (caseSlug : String) :
    List StageRequest → Session × List CaseHistory → Session × List CaseHistory
  | [], st => st
  | r :: rs, st =>
    match stage_view apiKeyOk call instrDb cases st.2 r.isAuth r.username r.method
      r.isAjax r.message caseSlug r.stage st.1 with
    | some out =>
      runStageViews apiKeyOk call instrDb cases caseSlug rs (out.session, out.histories)
    | none => runStageViews apiKeyOk call instrDb cases caseSlug rs st

/-! ## Concrete fixtures used by witnesses and counterexamples -/

/-- The case of the spec's rendering example: `meds_norm = "Give aspirin"`,
`prelim_dx_raw = "STEMI"`. -/
def medsExampleCase : Case where
  id := 1
  slug := "ex"
  name := "Example"
  content := ""
  diagnostics_norm := ""
  prelim_dx_raw := "STEMI"
  meds_norm := "Give aspirin"
  reco_norm := ""
  dispo_norm := ""

/-- The stage-`meds` instruction of the spec's rendering example. -/
def medsExampleInstruction : Instruction where
  id := 10
  caseId := some 1
  stage := "meds"
  body := "\x7bcase_norm\x7d\n\x7bprelim_dx\x7d\nU: \x7buser_answers\x7d\nB: \x7bbot_answers\x7d\nMSG: \x7bactual_msg\x7d"
  active := true
  version := 1
  updatedAt := 0

/-- Fixture case for the resolution witness. -/
def resCase : Case where
  id := 2
  slug := "r"
  name := "R"
  content := ""
  diagnostics_norm := ""
  prelim_dx_raw := ""
  meds_norm := ""
  reco_norm := ""
  dispo_norm := ""

/-- Fixture instruction table for the resolution witness: two active
case-specific diagnostics rows (versions 1 and 2), one active global row,
one inactive case-specific row. -/
def resDb : List Instruction :=
  [{ id := 1, caseId := some 2, stage := "diagnostics", body := "s1",
     active := true, version := 1, updatedAt := 5 },
   { id := 2, caseId := some 2, stage := "diagnostics", body := "s2",
     active := true, version := 2, updatedAt := 1 },
   { id := 3, caseId := none, stage := "diagnostics", body := "g",
     active := true, version := 9, updatedAt := 9 },
   { id := 4, caseId := some 2, stage := "diagnostics", body := "x",
     active := false, version := 7, updatedAt := 7 }]

/-- The field names a tokenized template references. -/
def fmtFieldNames : List FmtTok → List String
  | [] => []
  | .lit _ :: t => fmtFieldNames t
  | .field n :: t => String.mk n :: fmtFieldNames t

/-- The five placeholder names `render_instruction_body` provides. -/
def renderPlaceholderNames : List String :=
  ["case_norm", "prelim_dx", "user_answers", "bot_answers", "actual_msg"]

/-- An instruction whose body references a placeholder outside the fixed
set. -/
def bogusInstruction : Instruction where
  id := 20
  caseId := some 1
  stage := "meds"
  body := "x \x7bbogus\x7d y"
  active := true
  version := 1
  updatedAt := 0

/-- A valid single-placeholder instruction for the same case and stage. -/
def plainInstruction : Instruction where
  id := 21
  caseId := some 1
  stage := "meds"
  body := "say \x7bactual_msg\x7d"
  active := true
  version := 1
  updatedAt := 0

/-- An oracle that always answers. -/
def okOracle : Oracle := fun _ _ _ _ => .ok "OK"

/-- An oracle that always raises an exception outside the `OpenAIError`
hierarchy. -/
def boomOracle : Oracle := fun _ _ _ _ => .error (.unexpected "boom")

/-- An oracle whose primary model raises an `AuthenticationError` whose
message contains the availability keyword `permission`; the fallback
model answers. -/
def authPermOracle : Oracle := fun model _ _ _ =>
  if model = OPENAI_MODEL_PRIMARY then
    .error (.authentication "permission denied for this api key")
  else .ok "fallback-reply"

/-- An oracle whose reply is not JSON. -/
def notJsonOracle : Oracle := fun _ _ _ _ => .ok "not json"

/-- An oracle whose reply parses as truthy non-dict JSON (an array), the
shape that makes the summary auto-save block raise `AttributeError` at
`data.get("verdict", "")`. -/
def nonDictOracle : Oracle := fun _ _ _ _ => .ok "[1]"

/-- The case of the repository's own slug test. -/
def slugExampleCase : Case where
  id := 7
  slug := ""
  name := "Pacjent z bólem w klatce piersiowej"
  content := ""
  diagnostics_norm := ""
  prelim_dx_raw := ""
  meds_norm := ""
  reco_norm := ""
  dispo_norm := ""

/-- A session sitting on `medsExampleCase` with the diagnostics stage
completed. -/
def completedDiagnosticsSession : Session where
  activeCaseSlug := some "ex"
  chats := [("diagnostics", [⟨"user", "q"⟩, ⟨"assistant", "ZALICZAM"⟩])]
  completedStages := ["diagnostics"]
  canProceedToDx := true
  caseSaved := false

/-- A session sitting on `medsExampleCase` with every non-terminal stage
completed and the attempt already saved. -/
def savedSession : Session where
  activeCaseSlug := some "ex"
  chats := []
  completedStages := ["diagnostics", "first_exam", "meds", "reco", "dispo"]
  canProceedToDx := true
  caseSaved := true

/-- The saved-attempt session before the save flag is set. -/
def unsavedSession : Session where
  activeCaseSlug := some "ex"
  chats := []
  completedStages := ["diagnostics", "first_exam", "meds", "reco", "dispo"]
  canProceedToDx := true
  caseSaved := false

/-! # Theorems -/

/-! ## Ordering lemmas for `resolve_instruction` -/

theorem betterInstr_irrefl (a : Instruction) : betterInstr a a = false := by
  simp [betterInstr]

theorem betterInstr_false_iff (a b : Instruction) :
    betterInstr a b = false ↔
      a.version ≤ b.version ∧ (a.version = b.version → a.updatedAt ≤ b.updatedAt) := by
  simp only [betterInstr, decide_eq_false_iff_not]
  omega

theorem betterInstr_asymm {a b : Instruction} (h : betterInstr a b = true) :
    betterInstr b a = false := by
  simp only [betterInstr, decide_eq_true_eq] at h
  rw [betterInstr_false_iff]
  omega

theorem notBetter_trans {a b c : Instruction} (hab : betterInstr a b = false)
    (hbc : betterInstr b c = false) : betterInstr a c = false := by
  rw [betterInstr_false_iff] at hab hbc ⊢
  omega

theorem firstByOrder_cons_none (x : Instruction) {t : List Instruction}
    (ht : firstByOrder t = none) : firstByOrder (x :: t) = some x := by
  rw [firstByOrder, ht]

theorem firstByOrder_cons_some (x : Instruction) {t : List Instruction}
    {j : Instruction} (ht : firstByOrder t = some j) :
    firstByOrder (x :: t) = if betterInstr j x then some j else some x := by
  rw [firstByOrder, ht]

theorem firstByOrder_eq_none {l : List Instruction} :
    firstByOrder l = none ↔ l = [] := by
  cases l with
  | nil => simp [firstByOrder]
  | cons x t =>
    cases ht : firstByOrder t with
    | none => simp [firstByOrder_cons_none x ht]
    | some j =>
      rw [firstByOrder_cons_some x ht]
      split <;> simp

theorem firstByOrder_mem {l : List Instruction} {i : Instruction}
    (h : firstByOrder l = some i) : i ∈ l := by
  induction l generalizing i with
  | nil => simp [firstByOrder] at h
  | cons x t ih =>
    cases ht : firstByOrder t with
    | none =>
      rw [firstByOrder_cons_none x ht] at h
      simp only [Option.some.injEq] at h
      simp [h]
    | some j =>
      rw [firstByOrder_cons_some x ht] at h
      split at h
      · simp only [Option.some.injEq] at h
        exact List.mem_cons_of_mem _ (h ▸ ih ht)
      · simp only [Option.some.injEq] at h
        simp [h]

theorem firstByOrder_max {l : List Instruction} {i : Instruction}
    (h : firstByOrder l = some i) : ∀ j ∈ l, betterInstr j i = false := by
  induction l generalizing i with
  | nil => simp [firstByOrder] at h
  | cons x t ih =>
    intro j hj
    cases ht : firstByOrder t with
    | none =>
      rw [firstByOrder_cons_none x ht] at h
      simp only [Option.some.injEq] at h
      have htnil : t = [] := firstByOrder_eq_none.mp ht
      subst htnil
      simp only [List.mem_singleton] at hj
      subst hj
      exact h ▸ betterInstr_irrefl _
    | some b =>
      rw [firstByOrder_cons_some x ht] at h
      split at h <;> rename_i hb <;> simp only [Option.some.injEq] at h <;> subst h
      · rcases List.mem_cons.mp hj with rfl | hjt
        · exact betterInstr_asymm hb
        · exact ih ht j hjt
      · rcases List.mem_cons.mp hj with rfl | hjt
        · exact betterInstr_irrefl j
        · exact notBetter_trans (ih ht j hjt) (Bool.eq_false_iff.mpr hb)

/-- Membership in the case-specific filter of `resolve_instruction`. -/
theorem mem_specFilter {db : List Instruction} {c : Case} {stage : String}
    {i : Instruction} :
    i ∈ db.filter (fun i => i.caseId == some c.id && i.stage == stage && i.active) ↔
      i ∈ db ∧ i.caseId = some c.id ∧ i.stage = stage ∧ i.active = true := by
  simp [List.mem_filter, Bool.and_eq_true, beq_iff_eq, and_assoc]

/-- Membership in the global filter of `resolve_instruction`. -/
theorem mem_globalFilter {db : List Instruction} {stage : String}
    {i : Instruction} :
    i ∈ db.filter (fun i => i.caseId == none && i.stage == stage && i.active) ↔
      i ∈ db ∧ i.caseId = none ∧ i.stage = stage ∧ i.active = true := by
  simp [List.mem_filter, Bool.and_eq_true, beq_iff_eq, and_assoc]

theorem resolve_of_firstByOrder_some {db : List Instruction} {stage : String}
    {c : Case} {i : Instruction}
    (hs : firstByOrder (db.filter fun i =>
      i.caseId == some c.id && i.stage == stage && i.active) = some i) :
    resolve_instruction stage c db = some i := by
  unfold resolve_instruction
  rw [hs]

theorem resolve_of_firstByOrder_none {db : List Instruction} {stage : String}
    {c : Case}
    (hs : firstByOrder (db.filter fun i =>
      i.caseId == some c.id && i.stage == stage && i.active) = none) :
    resolve_instruction stage c db =
      firstByOrder (db.filter fun i =>
        i.caseId == none && i.stage == stage && i.active) := by
  unfold resolve_instruction
  rw [hs]

/-- C1: for every stage and case, `resolve_instruction` returns a maximal
active case-specific instruction (by version, ties by `updated_at`) when
one exists; otherwise a maximal active global instruction when one exists;
otherwise `none`. It never returns an inactive instruction, an instruction
for a different stage, or one scoped to a different case. -/
theorem C1_resolve_instruction_selection (db : List Instruction)
    (stage : String) (c : Case) :
    (∀ i, resolve_instruction stage c db = some i →
        i ∈ db ∧ i.active = true ∧ i.stage = stage ∧
          (i.caseId = some c.id ∨ i.caseId = none))
    ∧ ((∃ i ∈ db, i.caseId = some c.id ∧ i.stage = stage ∧ i.active = true) →
        ∃ i, resolve_instruction stage c db = some i ∧
          i ∈ db ∧ i.caseId = some c.id ∧ i.stage = stage ∧ i.active = true ∧
          ∀ j ∈ db, j.caseId = some c.id → j.stage = stage → j.active = true →
            j.version ≤ i.version ∧
              (j.version = i.version → j.updatedAt ≤ i.updatedAt))
    ∧ ((∀ i ∈ db, ¬(i.caseId = some c.id ∧ i.stage = stage ∧ i.active = true)) →
        (∃ i ∈ db, i.caseId = none ∧ i.stage = stage ∧ i.active = true) →
        ∃ i, resolve_instruction stage c db = some i ∧
          i ∈ db ∧ i.caseId = none ∧ i.stage = stage ∧ i.active = true ∧
          ∀ j ∈ db, j.caseId = none → j.stage = stage → j.active = true →
            j.version ≤ i.version ∧
              (j.version = i.version → j.updatedAt ≤ i.updatedAt))
    ∧ ((∀ i ∈ db,
          ¬((i.caseId = some c.id ∨ i.caseId = none) ∧ i.stage = stage ∧
            i.active = true)) →
        resolve_instruction stage c db = none) := by
  refine ⟨?_, ?_, ?_, ?_⟩
  · intro i h
    cases hs : firstByOrder (db.filter fun i =>
        i.caseId == some c.id && i.stage == stage && i.active) with
    | some k =>
      rw [resolve_of_firstByOrder_some hs] at h
      obtain rfl : k = i := by simpa using h
      obtain ⟨hm, hc, hst, ha⟩ := mem_specFilter.mp (firstByOrder_mem hs)
      exact ⟨hm, ha, hst, Or.inl hc⟩
    | none =>
      rw [resolve_of_firstByOrder_none hs] at h
      obtain ⟨hm, hc, hst, ha⟩ := mem_globalFilter.mp (firstByOrder_mem h)
      exact ⟨hm, ha, hst, Or.inr hc⟩
  · rintro ⟨i, hm, hc, hst, ha⟩
    have hmem : i ∈ db.filter fun i =>
        i.caseId == some c.id && i.stage == stage && i.active :=
      mem_specFilter.mpr ⟨hm, hc, hst, ha⟩
    cases hs : firstByOrder (db.filter fun i =>
        i.caseId == some c.id && i.stage == stage && i.active) with
    | none =>
      rw [firstByOrder_eq_none] at hs
      simp [hs] at hmem
    | some k =>
      obtain ⟨hkm, hkc, hkst, hka⟩ := mem_specFilter.mp (firstByOrder_mem hs)
      refine ⟨k, resolve_of_firstByOrder_some hs, hkm, hkc, hkst, hka, ?_⟩
      intro j hj hjc hjst hja
      have := firstByOrder_max hs j (mem_specFilter.mpr ⟨hj, hjc, hjst, hja⟩)
      exact (betterInstr_false_iff j k).mp this
  · intro hnone hex
    have hs : firstByOrder (db.filter fun i =>
        i.caseId == some c.id && i.stage == stage && i.active) = none := by
      rw [firstByOrder_eq_none, List.filter_eq_nil_iff]
      intro i hi
      simp only [Bool.and_eq_true, beq_iff_eq]
      intro hcontra
      exact hnone i hi ⟨hcontra.1.1, hcontra.1.2, hcontra.2⟩
    obtain ⟨i, hm, hc, hst, ha⟩ := hex
    have hmem : i ∈ db.filter fun i =>
        i.caseId == none && i.stage == stage && i.active :=
      mem_globalFilter.mpr ⟨hm, hc, hst, ha⟩
    cases hg : firstByOrder (db.filter fun i =>
        i.caseId == none && i.stage == stage && i.active) with
    | none =>
      rw [firstByOrder_eq_none] at hg
      simp [hg] at hmem
    | some k =>
      obtain ⟨hkm, hkc, hkst, hka⟩ := mem_globalFilter.mp (firstByOrder_mem hg)
      refine ⟨k, ?_, hkm, hkc, hkst, hka, ?_⟩
      · rw [resolve_of_firstByOrder_none hs]
        exact hg
      · intro j hj hjc hjst hja
        have := firstByOrder_max hg j (mem_globalFilter.mpr ⟨hj, hjc, hjst, hja⟩)
        exact (betterInstr_false_iff j k).mp this
  · intro hnone
    have hs : firstByOrder (db.filter fun i =>
        i.caseId == some c.id && i.stage == stage && i.active) = none := by
      rw [firstByOrder_eq_none, List.filter_eq_nil_iff]
      intro i hi
      simp only [Bool.and_eq_true, beq_iff_eq]
      intro hcontra
      exact hnone i hi ⟨Or.inl hcontra.1.1, hcontra.1.2, hcontra.2⟩
    have hg : firstByOrder (db.filter fun i =>
        i.caseId == none && i.stage == stage && i.active) = none := by
      rw [firstByOrder_eq_none, List.filter_eq_nil_iff]
      intro i hi
      simp only [Bool.and_eq_true, beq_iff_eq]
      intro hcontra
      exact hnone i hi ⟨Or.inr hcontra.1.1, hcontra.1.2, hcontra.2⟩
    rw [resolve_of_firstByOrder_none hs]
    exact hg

/-- Witness for C1 at a concrete table: with two active case-specific
diagnostics instructions (versions 1 and 2), one active global and one
inactive row, resolution picks the case-specific version-2 row. -/
theorem C1_resolve_instruction_selection_witness :
    (∃ i, resolve_instruction "diagnostics" resCase resDb = some i ∧
      i ∈ resDb ∧ i.caseId = some resCase.id ∧ i.stage = "diagnostics" ∧
      i.active = true ∧
      ∀ j ∈ resDb, j.caseId = some resCase.id → j.stage = "diagnostics" →
        j.active = true →
        j.version ≤ i.version ∧
          (j.version = i.version → j.updatedAt ≤ i.updatedAt)) ∧
    resolve_instruction "diagnostics" resCase resDb = some
      { id := 2, caseId := some 2, stage := "diagnostics", body := "s2",
        active := true, version := 2, updatedAt := 1 } :=
  ⟨(C1_resolve_instruction_selection resDb "diagnostics" resCase).2.1
    (by decide), by decide⟩

/-- C2: `case_norm_for_stage` follows the fixed stage→field mapping (empty
for any other stage), answer sequences are newline-joined while a single
string passes through and `None` becomes empty, and the spec's concrete
meds example renders exactly as stated. -/
theorem C2_render_instruction_body_spec (c : Case) :
    (case_norm_for_stage c "diagnostics" = c.diagnostics_norm ∧
     case_norm_for_stage c "meds" = c.meds_norm ∧
     case_norm_for_stage c "reco" = c.reco_norm ∧
     case_norm_for_stage c "dispo" = c.dispo_norm ∧
     case_norm_for_stage c "first_exam" = "" ∧
     ∀ stage, stage ∉ (["diagnostics", "meds", "reco", "dispo"] : List String) →
       case_norm_for_stage c stage = "")
    ∧ ((∀ items, answersJoin (.ofList items) = String.intercalate "\n" items) ∧
       answersJoin .pyNone = "" ∧ ∀ s, answersJoin (.ofStr s) = s)
    ∧ render_instruction_body medsExampleInstruction medsExampleCase
        (.ofList ["a", "b"]) (.ofList ["c"]) "x"
        = .ok "Give aspirin\nSTEMI\nU: a\nb\nB: c\nMSG: x" := by
  refine ⟨⟨?_, ?_, ?_, ?_, ?_, ?_⟩, ⟨fun _ => rfl, rfl, fun _ => rfl⟩, ?_⟩
  · simp [case_norm_for_stage, pyOrStr]
    exact fun h => h.symm
  · simp [case_norm_for_stage, pyOrStr]
    exact fun h => h.symm
  · simp [case_norm_for_stage, pyOrStr]
    exact fun h => h.symm
  · simp [case_norm_for_stage, pyOrStr]
    exact fun h => h.symm
  · simp [case_norm_for_stage]
  · intro stage h
    simp only [List.mem_cons, List.not_mem_nil, or_false, not_or] at h
    obtain ⟨h1, h2, h3, h4⟩ := h
    simp [case_norm_for_stage, h1, h2, h3, h4]
  · rfl

/-! ## C3: template errors in the per-turn reply flow -/

theorem lookup_none_of_not_mem_keys {β : Type} {l : List (String × β)}
    {k : String} (h : k ∉ l.map Prod.fst) : l.lookup k = none := by
  induction l with
  | nil => rfl
  | cons p t ih =>
    simp only [List.map_cons, List.mem_cons, not_or] at h
    rw [List.lookup_cons]
    have : (k == p.1) = false := beq_eq_false_iff_ne.mpr h.1
    rw [this]
    exact ih h.2

theorem formatToks_error_of_missing {env : List (String × String)}
    {toks : List FmtTok}
    (h : ∃ n ∈ fmtFieldNames toks, n ∉ env.map Prod.fst) :
    ∃ e, formatToks env toks = .error e := by
  induction toks with
  | nil => simp [fmtFieldNames] at h
  | cons tok t ih =>
    cases tok with
    | lit s =>
      simp only [fmtFieldNames] at h
      obtain ⟨e, he⟩ := ih h
      exact ⟨e, by simp [formatToks, he, Except.map]⟩
    | field n =>
      simp only [fmtFieldNames, List.mem_cons] at h
      obtain ⟨m, hm, hnot⟩ := h
      rcases hm with rfl | hmt
      · exact ⟨.keyError (String.mk n), by
          simp [formatToks, lookup_none_of_not_mem_keys hnot]⟩
      · cases hk : env.lookup (String.mk n) with
        | none => exact ⟨.keyError (String.mk n), by simp [formatToks, hk]⟩
        | some v =>
          obtain ⟨e, he⟩ := ih ⟨m, hmt, hnot⟩
          exact ⟨e, by simp [formatToks, hk, he, Except.map]⟩

/-- C3 (amended): a body referencing a placeholder outside the fixed
five-name set makes `render_instruction_body` fail with a template error,
but the per-turn reply flow `_bot_reply_stage_db` catches that failure in
its generic `except Exception` handler and returns the fixed internal
error message — the failure is NOT surfaced to the caller as a distinct
failure. -/
theorem C3_template_error_generic_reply :
    (∀ (inst : Instruction) (c : Case) (ua ba : Answers) (am : String)
        (toks : List FmtTok),
      parseFmt inst.body.data = some toks →
      (∃ n ∈ fmtFieldNames toks, n ∉ renderPlaceholderNames) →
      ∃ e, render_instruction_body inst c ua ba am = .error e)
    ∧ (∀ (apiKeyOk : Bool) (call : Oracle) (db : List Instruction)
        (stage : String) (c : Case) (userText : String) (ua ba : Answers)
        (am : String) (inst : Instruction) (e : TemplateErr),
      resolve_instruction stage c db = some inst →
      render_instruction_body inst c ua ba am = .error e →
      bot_reply_stage_db apiKeyOk call db stage c userText ua ba am
        = internalErrorReply) := by
  constructor
  · intro inst c ua ba am toks hparse hmiss
    unfold render_instruction_body pyFormat
    rw [hparse]
    apply formatToks_error_of_missing
    obtain ⟨n, hn, hnot⟩ := hmiss
    exact ⟨n, hn, by simpa [renderPlaceholderNames] using hnot⟩
  · intro apiKeyOk call db stage c userText ua ba am inst e hres hrender
    unfold bot_reply_stage_db
    simp only [hres, hrender]

/-- Counterexample for C3 as stated: for the concrete instruction whose
body references `bogus`, rendering fails with a `KeyError`, yet the
per-turn reply flow returns the fixed generic internal-error message —
the very same reply it gives for an unrelated internal fault — so the
template failure is swallowed into a generic message, not propagated as a
distinct failure. -/
theorem C3_counterexample :
    render_instruction_body bogusInstruction medsExampleCase
        (.ofList []) (.ofList []) "m" = .error (.keyError "bogus")
    ∧ bot_reply_stage_db true okOracle [bogusInstruction] "meds"
        medsExampleCase "m" (.ofList []) (.ofList []) "m"
        = internalErrorReply
    ∧ bot_reply_stage_db true boomOracle [plainInstruction] "meds"
        medsExampleCase "m" (.ofList []) (.ofList []) "m"
        = internalErrorReply := by
  refine ⟨rfl, rfl, rfl⟩

/-! ## C6: pass-phrase matching -/

/-- C6: pass-phrase stage-completion matching is a case-insensitive,
accent-insensitive substring test of each target against the reply text;
the concrete reply `"Pacjent – ZALICZAM etap."` matches the target
`"zaliczam"`, and the empty reply never matches any target list. -/
theorem C6_pass_phrase_matching :
    (∀ (text : String) (targets : List String),
      check_can_proceed text targets = true ↔
        (text ≠ "" ∧ ∃ t ∈ targets,
          strContains (pyLower (strip_accents text))
            (pyLower (strip_accents t)) = true))
    ∧ check_can_proceed "Pacjent – ZALICZAM etap." ["zaliczam"] = true
    ∧ ∀ targets, check_can_proceed "" targets = false := by
  refine ⟨?_, by decide, fun targets => rfl⟩
  intro text targets
  unfold check_can_proceed
  split
  · rename_i h
    simp [h]
  · rename_i h
    simp [List.any_eq_true, h]

/-- Closed instance of C6's characterization at a concrete input. -/
theorem C6_pass_phrase_matching_witness :
    ("Pacjent – ZALICZAM etap." : String) ≠ "" ∧
      ∃ t ∈ (["zaliczam"] : List String),
        strContains (pyLower (strip_accents "Pacjent – ZALICZAM etap."))
          (pyLower (strip_accents t)) = true :=
  (C6_pass_phrase_matching.1 "Pacjent – ZALICZAM etap." ["zaliczam"]).mp
    (by decide)

/-! ## C7: the fallback policy of the external call -/

/-- C7 (amended): the external call retries with the fallback model
exactly once, and precisely when the primary attempt fails with an
`OpenAIError` whose lower-cased message contains an availability keyword;
every other fault is propagated after the single primary attempt.  An
authentication fault whose message has no availability keyword is
propagated and the per-turn flow reports it as the fixed human-readable
message; one whose message does contain a keyword is retried (see the
counterexample). -/
theorem C7_fallback_policy :
    (∀ (call : Oracle) (instr inp : String) (n : Nat) (t : String),
      call OPENAI_MODEL_PRIMARY instr inp n = .ok t →
      call_openai_with_fallback true call instr inp n
        = (.ok t, [OPENAI_MODEL_PRIMARY]))
    ∧ (∀ (call : Oracle) (instr inp : String) (n : Nat) (f : Fault),
      call OPENAI_MODEL_PRIMARY instr inp n = .error f →
      (f.isOpenAI && isAvailabilityFault f.message) = false →
      call_openai_with_fallback true call instr inp n
        = (.error f, [OPENAI_MODEL_PRIMARY]))
    ∧ (∀ (call : Oracle) (instr inp : String) (n : Nat) (f : Fault),
      call OPENAI_MODEL_PRIMARY instr inp n = .error f →
      (f.isOpenAI && isAvailabilityFault f.message) = true →
      call_openai_with_fallback true call instr inp n
        = (call OPENAI_MODEL_FALLBACK instr inp n,
           [OPENAI_MODEL_PRIMARY, OPENAI_MODEL_FALLBACK]))
    ∧ (∀ (apiKeyOk : Bool) (call : Oracle) (db : List Instruction)
        (stage : String) (c : Case) (userText : String) (ua ba : Answers)
        (am : String) (inst : Instruction) (body m : String),
      resolve_instruction stage c db = some inst →
      render_instruction_body inst c ua ba am = .ok body →
      (call_openai_with_fallback apiKeyOk call body userText 500).1
        = .error (.authentication m) →
      bot_reply_stage_db apiKeyOk call db stage c userText ua ba am
        = authErrorReply) := by
  refine ⟨?_, ?_, ?_, ?_⟩
  · intro call instr inp n t h
    unfold call_openai_with_fallback
    simp [h]
  · intro call instr inp n f h hrec
    unfold call_openai_with_fallback
    simp [h, hrec]
  · intro call instr inp n f h hrec
    unfold call_openai_with_fallback
    simp [h, hrec]
  · intro apiKeyOk call db stage c userText ua ba am inst body m hres hrender hcall
    unfold bot_reply_stage_db
    simp only [hres, hrender, hcall]

/-- Witness for C7's fallback branch at a concrete oracle. -/
theorem C7_fallback_policy_witness :
    call_openai_with_fallback true authPermOracle "i" "t" 500
      = (authPermOracle OPENAI_MODEL_FALLBACK "i" "t" 500,
         [OPENAI_MODEL_PRIMARY, OPENAI_MODEL_FALLBACK]) :=
  C7_fallback_policy.2.2.1 authPermOracle "i" "t" 500
    (.authentication "permission denied for this api key") rfl (by decide)

/-- Counterexample for C7 as stated: the primary attempt fails with an
authentication fault (message containing `permission`), yet the fallback
model IS attempted and its reply reaches the user — no fixed
authentication message, contradicting "an authentication fault ... is
reported ... with no fallback attempt". -/
theorem C7_counterexample :
    call_openai_with_fallback true authPermOracle "i" "t" 500
      = (.ok "fallback-reply", [OPENAI_MODEL_PRIMARY, OPENAI_MODEL_FALLBACK])
    ∧ bot_reply_stage_db true authPermOracle [plainInstruction] "meds"
        medsExampleCase "m" (.ofList []) (.ofList []) "m" = "fallback-reply"
    ∧ "fallback-reply" ≠ authErrorReply := by
  exact ⟨rfl, rfl, by decide⟩

/-! ## C9: slug derivation, immutability, uniqueness -/

/-- C9: the slug is derived from the name (Django `slugify`, truncated to
120 characters) exactly on a save with no slug set; a later save leaves
the row unchanged; and inserting a case whose saved slug collides with an
existing row is rejected by the uniqueness constraint, which preserves
pairwise-distinct slugs. -/
theorem C9_slug_invariants :
    (∀ c : Case, c.slug = "" → (caseSave c).slug = (slugify c.name).take 120)
    ∧ (∀ c : Case, c.slug ≠ "" → caseSave c = c)
    ∧ (∀ (db : List Case) (c0 : Case),
        (∃ d ∈ db, d.slug = (caseSave c0).slug) →
        ∃ e, insertCase db c0 = .error e)
    ∧ (∀ (db db2 : List Case) (c0 : Case),
        db.Pairwise (fun a b => a.slug ≠ b.slug) →
        insertCase db c0 = .ok db2 →
        db2.Pairwise (fun a b => a.slug ≠ b.slug)) := by
  refine ⟨?_, ?_, ?_, ?_⟩
  · intro c h
    simp [caseSave, h]
  · intro c h
    simp [caseSave, h]
  · intro db c0 hex
    obtain ⟨d, hd, hslug⟩ := hex
    simp only [insertCase]
    split
    · exact ⟨_, rfl⟩
    · rename_i hany
      exfalso
      apply hany
      rw [List.any_eq_true]
      exact ⟨d, hd, beq_iff_eq.mpr hslug⟩
  · intro db db2 c0 hpw hins
    simp only [insertCase] at hins
    split at hins
    · cases hins
    · rename_i hany
      obtain rfl : db ++ [caseSave c0] = db2 := by
        simpa using hins
      rw [List.pairwise_append]
      refine ⟨hpw, List.pairwise_singleton _ _, ?_⟩
      intro a ha b hb
      simp only [List.mem_singleton] at hb
      subst hb
      simp only [List.any_eq_true, beq_iff_eq, not_exists] at hany
      intro hcontra
      exact absurd ⟨ha, hcontra⟩ (hany a)

/-- Witness for C9 at the repository's own slug test: the generated slug,
and the rejection of a second row with the same name. -/
theorem C9_slug_invariants_witness :
    (caseSave slugExampleCase).slug = "pacjent-z-bolem-w-klatce-piersiowej"
    ∧ ∃ e, insertCase [caseSave slugExampleCase] slugExampleCase = .error e :=
  ⟨rfl, C9_slug_invariants.2.2.1 [caseSave slugExampleCase] slugExampleCase
    ⟨caseSave slugExampleCase, by simp, rfl⟩⟩

/-! ## C10: POST to an already completed stage -/

/-- C10: a POST of a message to a completed non-summary stage changes
nothing — session and history table are returned exactly as they were,
the result does not depend on the oracle (no external call is observable),
and the response is the stage-completed rejection (JSON
`ok=false, error="stage_completed"` for AJAX, a redirect back to the same
stage otherwise). -/
theorem C10_completed_stage_rejection
    (apiKeyOk : Bool) (call : Oracle) (instrDb : List Instruction)
    (cases : List Case) (histories : List CaseHistory)
    (isAuth : Bool) (username : String) (isAjax : Bool) (message : String)
    (caseSlug stage : String) (c : Case) (s0 : Session)
    (hfind : cases.find? (fun d => d.slug == caseSlug) = some c)
    (hstage : STAGE_ORDER.contains stage = true)
    (hnotsummary : stage ≠ "summary")
    (hactive : s0.activeCaseSlug = some c.slug)
    (hdone : s0.completedStages.contains stage = true) :
    stage_view apiKeyOk call instrDb cases histories isAuth username .post
        isAjax message caseSlug stage s0
      = some ⟨s0, histories,
          if isAjax then .jsonRejected "stage_completed"
          else .redirectStage c.slug stage⟩ := by
  have hm1 : stage ∈ STAGE_ORDER := by simpa using hstage
  have hm2 : stage ∈ s0.completedStages := by simpa using hdone
  unfold stage_view
  simp [hstage, hfind, hactive, hnotsummary, hdone, hm1, hm2]

/-- Witness for C10: AJAX POST to the completed diagnostics stage is
rejected with the exact JSON error and leaves the state alone. -/
theorem C10_completed_stage_rejection_witness :
    stage_view true okOracle [] [medsExampleCase] [] false "" .post true
        "hello again" "ex" "diagnostics" completedDiagnosticsSession
      = some ⟨completedDiagnosticsSession, [], .jsonRejected "stage_completed"⟩ :=
  C10_completed_stage_rejection true okOracle [] [medsExampleCase] []
    false "" true "hello again" "ex" "diagnostics" medsExampleCase
    completedDiagnosticsSession rfl (by decide) (by decide) rfl rfl

/-! ## C4: summary assembly over empty chats -/

theorem pyOrStr_empty (s : String) : pyOrStr s "" = s := by
  unfold pyOrStr
  split
  · rename_i h
    exact h.symm
  · rfl

theorem lookup_append_single_ne {α : Type} {l : List (String × α)}
    {k key : String} {v : α} (h : key ≠ k) :
    (l ++ [(k, v)]).lookup key = l.lookup key := by
  induction l with
  | nil =>
    simp [List.lookup, beq_eq_false_iff_ne.mpr h]
  | cons p t ih =>
    rw [List.cons_append, List.lookup_cons, List.lookup_cons]
    cases hkp : key == p.1 <;> simp [ih]

theorem build_stage_payload_congr {chats1 chats2 : Chats}
    (h : ∀ s ∈ STAGE_ORDER.filter (fun s => s ≠ "summary"),
      chats1.lookup s = chats2.lookup s) :
    build_stage_payload chats1 = build_stage_payload chats2 := by
  unfold build_stage_payload
  apply List.map_congr_left
  intro s hs
  rw [h s hs]

theorem build_stage_payload_summary_entry (chats : Chats) (v : List Msg) :
    build_stage_payload (chats ++ [("__summary__", v)])
      = build_stage_payload chats := by
  apply build_stage_payload_congr
  intro s hs
  apply lookup_append_single_ne
  simp only [List.mem_filter, STAGE_ORDER, List.mem_cons,
    List.not_mem_nil, or_false] at hs
  rcases hs.1 with rfl | rfl | rfl | rfl | rfl | rfl <;> decide

/-- C4 (amended): over an empty chats mapping the payload is the five
fixed records (stage, label, empty conversation, empty last answers) in
order; the transcript is the non-empty stage-header text — NOT the
`"Brak historii rozmowy."` placeholder, whose branch is unreachable since
every section contains its header; the canonical-answers block carries
exactly the five fixed keys, `first_exam` drawn from the raw
preliminary-diagnosis field, each value falling back to `""` when blank;
and a `"__summary__"` entry in the chats contributes nothing to the
payload or the assembled prompt. -/
theorem C4_summary_assembly_empty_chats :
    build_stage_payload []
      = [{ stage := "diagnostics", label := "Diagnostyka", conversation := [],
           user_last_answer := "", assistant_last_answer := "" },
         { stage := "first_exam", label := "Rozpoznanie wstępne",
           conversation := [], user_last_answer := "",
           assistant_last_answer := "" },
         { stage := "meds", label := "Leczenie ostre", conversation := [],
           user_last_answer := "", assistant_last_answer := "" },
         { stage := "reco", label := "Zalecenia po leczeniu",
           conversation := [], user_last_answer := "",
           assistant_last_answer := "" },
         { stage := "dispo", label := "Skierowanie / Dispo",
           conversation := [], user_last_answer := "",
           assistant_last_answer := "" }]
    ∧ summaryTranscript []
      = "## Diagnostyka\n\n## Rozpoznanie wstępne\n\n## Leczenie ostre\n\n## Zalecenia po leczeniu\n\n## Skierowanie / Dispo"
    ∧ (∀ c : Case, canonicalAnswersPayload c
        = [("diagnostics", c.diagnostics_norm), ("first_exam", c.prelim_dx_raw),
           ("meds", c.meds_norm), ("reco", c.reco_norm),
           ("dispo", c.dispo_norm)])
    ∧ (∀ (chats : Chats) (v : List Msg),
        build_stage_payload (chats ++ [("__summary__", v)])
          = build_stage_payload chats)
    ∧ (∀ (c : Case) (chats : Chats) (v : List Msg),
        generate_summary_instructions c (chats ++ [("__summary__", v)])
          = generate_summary_instructions c chats) := by
  refine ⟨rfl, rfl, ?_, build_stage_payload_summary_entry, ?_⟩
  · intro c
    simp [canonicalAnswersPayload, pyOrStr_empty]
  · intro c chats v
    unfold generate_summary_instructions summaryTranscript
    rw [build_stage_payload_summary_entry]

/-- Counterexample for C4 as stated: the transcript assembled from an
empty chats mapping is neither the empty string nor the placeholder
`"Brak historii rozmowy."`. -/
theorem C4_counterexample :
    summaryTranscript [] ≠ "Brak historii rozmowy."
      ∧ summaryTranscript [] ≠ "" := by
  constructor <;> decide

/-! ## C5: string lemmas for the fence-stripping argument -/

theorem hasOcc_cons (pat : List Char) (a : Char) (t : List Char) :
    hasOcc pat (a :: t) = (startsWithL pat (a :: t) || hasOcc pat t) := rfl

theorem hasOcc_nil_pat (l : List Char) : hasOcc [] l = true := by
  cases l <;> simp [hasOcc, startsWithL]

theorem startsWithL_nil_inv {pat : List Char}
    (h : startsWithL pat [] = true) : pat = [] := by
  cases pat with
  | nil => rfl
  | cons p ps => simp [startsWithL] at h

theorem hasOcc_of_startsWithL {pat l : List Char}
    (h : startsWithL pat l = true) : hasOcc pat l = true := by
  cases l with
  | nil => simpa [hasOcc] using h
  | cons a t => simp [hasOcc_cons, h]

theorem hasOcc_of_tail {pat : List Char} {a : Char} {t : List Char}
    (h : hasOcc pat t = true) : hasOcc pat (a :: t) = true := by
  simp [hasOcc_cons, h]

theorem startsWithL_append {pat l l2 : List Char}
    (h : startsWithL pat l = true) : startsWithL pat (l ++ l2) = true := by
  induction pat generalizing l with
  | nil => simp [startsWithL]
  | cons p ps ih =>
    cases l with
    | nil => simp [startsWithL] at h
    | cons c cs =>
      simp only [startsWithL, Bool.and_eq_true] at h
      simp only [List.cons_append, startsWithL, Bool.and_eq_true]
      exact ⟨h.1, ih h.2⟩

theorem hasOcc_append_left {pat l1 : List Char} (l2 : List Char)
    (h : hasOcc pat l1 = true) : hasOcc pat (l1 ++ l2) = true := by
  induction l1 with
  | nil =>
    have : pat = [] := startsWithL_nil_inv (by simpa [hasOcc] using h)
    subst this
    exact hasOcc_nil_pat _
  | cons a t ih =>
    rw [hasOcc_cons] at h
    rcases Bool.or_eq_true_iff.mp h with hs | ht
    · exact hasOcc_of_startsWithL (startsWithL_append hs)
    · exact hasOcc_of_tail (ih ht)

theorem hasOcc_append_right {pat l2 : List Char} (l1 : List Char)
    (h : hasOcc pat l2 = true) : hasOcc pat (l1 ++ l2) = true := by
  induction l1 with
  | nil => simpa using h
  | cons a t ih => exact hasOcc_of_tail ih

theorem hasOcc_of_dropWhile {pat : List Char} {p : Char → Bool}
    {l : List Char} (h : hasOcc pat (l.dropWhile p) = true) :
    hasOcc pat l = true := by
  have := hasOcc_append_right (l.takeWhile p) h
  rwa [List.takeWhile_append_dropWhile] at this

theorem pyRtrim_prefix (l : List Char) :
    ∃ suf, l = pyRtrim l ++ suf := by
  refine ⟨(l.reverse.takeWhile isPyWhitespace).reverse, ?_⟩
  unfold pyRtrim
  rw [← List.reverse_append, List.takeWhile_append_dropWhile, List.reverse_reverse]

theorem hasOcc_of_pyRtrim {pat l : List Char}
    (h : hasOcc pat (pyRtrim l) = true) : hasOcc pat l = true := by
  obtain ⟨suf, hsuf⟩ := pyRtrim_prefix l
  rw [hsuf]
  exact hasOcc_append_left suf h

theorem hasOcc_of_pyStripChars {pat l : List Char}
    (h : hasOcc pat (pyStripChars l) = true) : hasOcc pat l = true := by
  unfold pyStripChars pyLtrim at h
  exact hasOcc_of_dropWhile (hasOcc_of_pyRtrim h)

theorem dropWhile_idem (p : Char → Bool) (l : List Char) :
    (l.dropWhile p).dropWhile p = l.dropWhile p := by
  induction l with
  | nil => rfl
  | cons a t ih =>
    by_cases h : p a <;> simp [List.dropWhile_cons, h, ih]

theorem dropWhile_eq_self_of_prefix {p : Char → Bool} {x y suf : List Char}
    (hx : x.dropWhile p = x) (hsplit : x = y ++ suf) :
    y.dropWhile p = y := by
  cases y with
  | nil => rfl
  | cons a y2 =>
    have hna : p a = false := by
      by_contra hcontra
      have hpa : p a = true := by
        cases hpa2 : p a
        · exact absurd hpa2 hcontra
        · rfl
      rw [hsplit, List.cons_append] at hx
      simp only [List.dropWhile_cons, hpa, if_true] at hx
      have hlen := congrArg List.length hx
      have hle : ((y2 ++ suf).dropWhile p).length ≤ (y2 ++ suf).length :=
        (List.dropWhile_sublist _).length_le
      simp only [List.length_cons] at hlen
      omega
    simp [List.dropWhile_cons, hna]

theorem pyRtrim_idem (l : List Char) : pyRtrim (pyRtrim l) = pyRtrim l := by
  unfold pyRtrim
  rw [List.reverse_reverse, dropWhile_idem]

theorem pyStripChars_idem (l : List Char) :
    pyStripChars (pyStripChars l) = pyStripChars l := by
  unfold pyStripChars
  have h1 : pyLtrim (pyRtrim (pyLtrim l)) = pyRtrim (pyLtrim l) := by
    obtain ⟨suf, hsuf⟩ := pyRtrim_prefix (pyLtrim l)
    have hx : (pyLtrim l).dropWhile isPyWhitespace = pyLtrim l :=
      dropWhile_idem _ l
    exact dropWhile_eq_self_of_prefix hx hsuf
  rw [h1, pyRtrim_idem]

theorem pyRtrim_append_ws {b : Char} (hb : isPyWhitespace b = true)
    (l : List Char) : pyRtrim (l ++ [b]) = pyRtrim l := by
  unfold pyRtrim
  rw [List.reverse_append]
  simp [List.dropWhile_cons, hb]

theorem pyStripChars_append_newline (l : List Char) :
    pyStripChars (l ++ ['\n']) = pyStripChars l := by
  unfold pyStripChars pyLtrim
  rw [List.dropWhile_append]
  split
  · rename_i hemp
    have : l.dropWhile isPyWhitespace = [] := by
      simpa [List.isEmpty_iff] using hemp
    rw [this]
    simp [List.dropWhile_cons, isPyWhitespace, pyRtrim]
  · exact pyRtrim_append_ws (by decide) _

theorem string_data_append (a b : String) : (a ++ b).data = a.data ++ b.data := rfl

theorem fenceOpen_data :
    ("```json\n" : String).data
      = [backtickChar, backtickChar, backtickChar, 'j', 's', 'o', 'n', '\n'] := by
  decide

theorem fenceClose_data :
    ("\n```" : String).data = '\n' :: fence3 := by
  decide

theorem pyLtrim_cons_not_ws {a : Char} (ha : isPyWhitespace a = false)
    (l : List Char) : pyLtrim (a :: l) = a :: l := by
  unfold pyLtrim
  simp [List.dropWhile_cons, ha]

theorem pyRtrim_append_not_ws {b : Char} (hb : isPyWhitespace b = false)
    (l : List Char) : pyRtrim (l ++ [b]) = l ++ [b] := by
  unfold pyRtrim
  rw [List.reverse_append]
  simp [List.dropWhile_cons, hb]

theorem cutAtLastFence_cons_some {t r : List Char} (c : Char)
    (h : cutAtLastFence t = some r) :
    cutAtLastFence (c :: t) = some (c :: r) := by
  rw [cutAtLastFence, h]

theorem cutAtLastFence_tail (L : List Char) :
    cutAtLastFence (L ++ '\n' :: fence3) = some (L ++ ['\n']) := by
  induction L with
  | nil => rfl
  | cons a t ih =>
    rw [List.cons_append, cutAtLastFence_cons_some a ih]
    simp

/-- Fence stripping on a fenced reply: `_extract_json_payload` of
`"```json\n" ++ s ++ "\n```"` parses the stripped `s`. -/
theorem extract_fenced (s : String) :
    extract_json_payload ("```json\n" ++ s ++ "\n```")
      = jsonLoadsChars (pyStripChars s.data) := by
  have hdata : ("```json\n" ++ s ++ "\n```" : String).data
      = backtickChar :: backtickChar :: backtickChar :: 'j' :: 's' :: 'o' ::
        'n' :: '\n' :: (s.data ++ '\n' :: fence3) := by
    rw [string_data_append, string_data_append, fenceOpen_data, fenceClose_data]
    simp
  have hne : ("```json\n" ++ s ++ "\n```" : String) ≠ "" := by
    intro h
    have := congrArg String.data h
    rw [hdata] at this
    simp at this
  unfold extract_json_payload
  rw [if_neg hne, hdata]
  have hstrip : pyStripChars
      (backtickChar :: backtickChar :: backtickChar :: 'j' :: 's' :: 'o' ::
        'n' :: '\n' :: (s.data ++ '\n' :: fence3))
      = backtickChar :: backtickChar :: backtickChar :: 'j' :: 's' :: 'o' ::
        'n' :: '\n' :: (s.data ++ '\n' :: fence3) := by
    unfold pyStripChars
    rw [pyLtrim_cons_not_ws (by decide)]
    have hshape : backtickChar :: backtickChar :: backtickChar :: 'j' :: 's' ::
        'o' :: 'n' :: '\n' :: (s.data ++ '\n' :: fence3)
        = (backtickChar :: backtickChar :: backtickChar :: 'j' :: 's' :: 'o' ::
            'n' :: '\n' :: (s.data ++ ['\n', backtickChar, backtickChar]))
          ++ [backtickChar] := by
      simp [fence3]
    rw [hshape, pyRtrim_append_not_ws (by decide)]
  have hsw : startsWithL fence3
      (backtickChar :: backtickChar :: backtickChar :: 'j' :: 's' :: 'o' ::
        'n' :: '\n' :: (s.data ++ '\n' :: fence3)) = true := by
    simp [fence3, startsWithL]
  have hlead : stripLeadingFence
      (backtickChar :: backtickChar :: backtickChar :: 'j' :: 's' :: 'o' ::
        'n' :: '\n' :: (s.data ++ '\n' :: fence3))
      = s.data ++ '\n' :: fence3 := by
    unfold stripLeadingFence
    rw [if_pos hsw]
    simp [List.dropWhile_cons, isAsciiAlphaChar]
  simp only [hstrip, hsw, if_true, hlead]
  unfold rsplitFence
  rw [cutAtLastFence_tail]
  simp only [Option.getD_some]
  rw [pyStripChars_append_newline]

/-- An unfenced reply with no fence marker anywhere parses as its
stripped self. -/
theorem extract_unfenced (s : String) (hno : hasOcc fence3 s.data = false) :
    extract_json_payload s = jsonLoadsChars (pyStripChars s.data) := by
  by_cases hs : s = ""
  · subst hs
    rfl
  · have hsw : startsWithL fence3 (pyStripChars s.data) = false := by
      cases h : startsWithL fence3 (pyStripChars s.data) with
      | false => rfl
      | true =>
        have := hasOcc_of_pyStripChars (hasOcc_of_startsWithL h)
        rw [hno] at this
        cases this
    unfold extract_json_payload
    rw [if_neg hs]
    simp only [hsw, Bool.false_eq_true, if_false]
    rw [pyStripChars_idem]

/-- C5: a model reply at summary time whose extracted payload does not
parse (or parses to a falsy value) makes `generate_summary_assessment`
return the could-not-interpret result carrying the stripped raw text
(every fault path likewise returns a structured failure, never an
unhandled fault), and a reply wrapped in a ```json code fence parses
exactly as the unfenced reply. -/
theorem C5_summary_parse_failure_and_fence :
    (∀ (apiKeyOk : Bool) (call : Oracle) (c : Case) (chats : Chats)
        (raw : String),
      (call_openai_with_fallback apiKeyOk call
          (generate_summary_instructions c chats) (summaryTranscript chats)
          700).1 = .ok raw →
      (∀ d, extract_json_payload (pyStrip raw) = some d → jsonFalsy d = true) →
      generate_summary_assessment apiKeyOk call c chats
        = .failure summaryParseErrorMsg (pyStrip raw))
    ∧ (∀ s : String, hasOcc fence3 s.data = false →
        extract_json_payload ("```json\n" ++ s ++ "\n```")
          = extract_json_payload s) := by
  constructor
  · intro apiKeyOk call c chats raw hcall hfalsy
    unfold generate_summary_assessment
    simp only [hcall]
    cases hx : extract_json_payload (pyStrip raw) with
    | none => simp [hx]
    | some d =>
      simp [hx, hfalsy d hx]
  · intro s hno
    rw [extract_fenced, extract_unfenced s hno]

/-- Witness for C5: the concrete non-JSON reply `"not json"` yields the
could-not-interpret failure carrying the raw text, and a concrete fenced
object extracts exactly as its unfenced form. -/
theorem C5_summary_parse_failure_and_fence_witness :
    generate_summary_assessment true notJsonOracle medsExampleCase []
      = .failure summaryParseErrorMsg "not json"
    ∧ extract_json_payload ("```json\n" ++ "\x7b\"score\": 90\x7d" ++ "\n```")
      = extract_json_payload "\x7b\"score\": 90\x7d" := by
  constructor
  · have h1 : (call_openai_with_fallback true notJsonOracle
        (generate_summary_instructions medsExampleCase [])
        (summaryTranscript []) 700).1 = .ok "not json" := rfl
    have h2 : ∀ d, extract_json_payload (pyStrip "not json") = some d →
        jsonFalsy d = true := by
      intro d hd
      have : extract_json_payload (pyStrip "not json") = none := rfl
      rw [this] at hd
      cases hd
    exact C5_summary_parse_failure_and_fence.1 true notJsonOracle
      medsExampleCase [] "not json" h1 h2
  · exact C5_summary_parse_failure_and_fence.2 "\x7b\"score\": 90\x7d" (by decide)

/-! ## C8: the `CaseHistory` lifecycle -/

theorem stage_view_saved_step (apiKeyOk : Bool) (call : Oracle)
    (instrDb : List Instruction) (cases : List Case)
    (h : List CaseHistory) (isAuth : Bool) (username : String)
    (method : Method) (isAjax : Bool) (message slug stage : String)
    {s : Session} (hsaved : s.caseSaved = true)
    (hactive : s.activeCaseSlug = some slug) :
    ∃ out, stage_view apiKeyOk call instrDb cases h isAuth username method
        isAjax message slug stage s = some out
      ∧ out.histories = h ∧ out.session.caseSaved = true
      ∧ out.session.activeCaseSlug = some slug := by
  unfold stage_view
  split
  · exact ⟨_, rfl, rfl, hsaved, hactive⟩
  · cases hf : List.find? (fun c => c.slug == slug) cases with
    | none => exact ⟨_, rfl, rfl, hsaved, hactive⟩
    | some c =>
      have hcs : c.slug = slug := by simpa using List.find?_some hf
      have hres : (if s.activeCaseSlug ≠ some c.slug
          then resetSessionFor c.slug s else s) = s := by
        rw [hcs, hactive]
        simp
      simp only [hres]
      split
      · rename_i hsum
        split
        · exact ⟨_, rfl, rfl, hsaved, hactive⟩
        · have hcond : (isAuth && !s.caseSaved) = false := by
            rw [hsaved]
            simp
          simp only [hcond, Bool.false_eq_true, if_false]
          exact ⟨_, rfl, rfl, hsaved, hactive⟩
      · split
        · exact ⟨_, rfl, rfl, hsaved, hactive⟩
        · split
          · exact ⟨_, rfl, rfl, hsaved, hactive⟩
          · refine ⟨_, rfl, ?_, ?_, ?_⟩ <;>
              by_cases hmsg : pyStrip message = "" <;>
              simp [hmsg, hsaved, hactive]

theorem stage_view_append_only (apiKeyOk : Bool) (call : Oracle)
    (instrDb : List Instruction) (cases : List Case)
    (histories : List CaseHistory) (isAuth : Bool) (username : String)
    (method : Method) (isAjax : Bool) (message caseSlug stage : String)
    (s0 : Session) :
    ∀ out, stage_view apiKeyOk call instrDb cases histories isAuth username
        method isAjax message caseSlug stage s0 = some out →
      ∃ tail, out.histories = histories ++ tail := by
  intro out
  unfold stage_view
  simp only [stageTemplate]
  repeat' split
  all_goals intro hout
  all_goals first
    | (cases hout; exact ⟨[], (List.append_nil _).symm⟩)
    | (cases hout; exact ⟨[_], rfl⟩)
    | cases hout

theorem runStageViews_saved (apiKeyOk : Bool) (call : Oracle)
    (instrDb : List Instruction) (cases : List Case) (slug : String)
    (reqs : List StageRequest) :
    ∀ (s : Session) (h : List CaseHistory), s.caseSaved = true →
      s.activeCaseSlug = some slug →
      (runStageViews apiKeyOk call instrDb cases slug reqs (s, h)).2 = h
      ∧ (runStageViews apiKeyOk call instrDb cases slug reqs (s, h)).1.caseSaved
          = true := by
  induction reqs with
  | nil => intro s h hs ha; exact ⟨rfl, hs⟩
  | cons r rs ih =>
    intro s h hs ha
    obtain ⟨out, hout, hh, hsaved2, hactive2⟩ :=
      stage_view_saved_step apiKeyOk call instrDb cases h r.isAuth r.username
        r.method r.isAjax r.message slug r.stage hs ha
    unfold runStageViews
    simp only [hout]
    rw [hh]
    exact ih out.session h hsaved2 hactive2

/-- C8 (amended): lifecycle of the Case Attempt Record.  (i) When an
authenticated user reaches the summary stage of the active case with
every core stage completed, the session flag unset, AND the summary
payload's `data` being a dict (`summarySaveData = some kvs` — the case
whenever the model reply fails to parse, or parses to a JSON object),
exactly one `CaseHistory` row is appended (snapshotting chats plus the
`__summary__` annotation) and the flag is set; when the reply parses to
a truthy non-dict JSON value the view instead raises an uncaught
`AttributeError` at `data.get("verdict", "")` and no row is created at
that visit (see the counterexample).  (ii) With the flag set, a summary
visit appends nothing.  (iii) An unauthenticated summary visit appends
nothing.  (iv) Every `stage_view` outcome only ever APPENDS to the
history table — existing rows are never updated — and `reset_case_view`
leaves the table alone.  (v) Along any further request sequence for the
same case, the flag stays set and no further row is ever created. -/
theorem C8_case_history_lifecycle :
    (∀ (apiKeyOk : Bool) (call : Oracle) (instrDb : List Instruction)
        (cases : List Case) (histories : List CaseHistory)
        (username : String) (method : Method) (isAjax : Bool)
        (message caseSlug : String) (c : Case) (s0 : Session)
        (kvs : List (String × Json)),
      cases.find? (fun d => d.slug == caseSlug) = some c →
      s0.activeCaseSlug = some c.slug →
      coreStages.filter (fun s => !s0.completedStages.contains s) = [] →
      s0.caseSaved = false →
      summarySaveData (generate_summary_assessment apiKeyOk call c s0.chats)
        = some kvs →
      stage_view apiKeyOk call instrDb cases histories true username method
          isAjax message caseSlug "summary" s0
        = some ⟨{ s0 with caseSaved := true },
            histories ++ [{ user := username, caseId := c.id,
                            chats := savedChats s0.chats kvs,
                            completed_stages := s0.completedStages,
                            is_completed := true }],
            .summaryPage "chat/summary.html" true⟩)
    ∧ (∀ (apiKeyOk : Bool) (call : Oracle) (instrDb : List Instruction)
        (cases : List Case) (histories : List CaseHistory)
        (isAuth : Bool) (username : String) (method : Method) (isAjax : Bool)
        (message caseSlug : String) (c : Case) (s0 : Session),
      cases.find? (fun d => d.slug == caseSlug) = some c →
      s0.activeCaseSlug = some c.slug →
      coreStages.filter (fun s => !s0.completedStages.contains s) = [] →
      s0.caseSaved = true →
      stage_view apiKeyOk call instrDb cases histories isAuth username method
          isAjax message caseSlug "summary" s0
        = some ⟨s0, histories, .summaryPage "chat/summary.html" true⟩)
    ∧ (∀ (apiKeyOk : Bool) (call : Oracle) (instrDb : List Instruction)
        (cases : List Case) (histories : List CaseHistory)
        (username : String) (method : Method) (isAjax : Bool)
        (message caseSlug : String) (c : Case) (s0 : Session),
      cases.find? (fun d => d.slug == caseSlug) = some c →
      s0.activeCaseSlug = some c.slug →
      coreStages.filter (fun s => !s0.completedStages.contains s) = [] →
      stage_view apiKeyOk call instrDb cases histories false username method
          isAjax message caseSlug "summary" s0
        = some ⟨s0, histories, .summaryPage "chat/summary.html" s0.caseSaved⟩)
    ∧ (∀ (apiKeyOk : Bool) (call : Oracle) (instrDb : List Instruction)
        (cases : List Case) (histories : List CaseHistory) (isAuth : Bool)
        (username : String) (method : Method) (isAjax : Bool)
        (message caseSlug stage : String) (s0 : Session) (out : StepOut),
      stage_view apiKeyOk call instrDb cases histories isAuth username method
          isAjax message caseSlug stage s0 = some out →
      ∃ tail, out.histories = histories ++ tail)
    ∧ (∀ (cases : List Case) (histories : List CaseHistory)
        (caseSlug : String) (s0 : Session),
      (reset_case_view cases histories caseSlug s0).histories = histories)
    ∧ (∀ (apiKeyOk : Bool) (call : Oracle) (instrDb : List Instruction)
        (cases : List Case) (slug : String) (reqs : List StageRequest)
        (s : Session) (h : List CaseHistory),
      s.caseSaved = true → s.activeCaseSlug = some slug →
      (runStageViews apiKeyOk call instrDb cases slug reqs (s, h)).2 = h) := by
  have hcontains : (!STAGE_ORDER.contains "summary") = false := by decide
  refine ⟨?_, ?_, ?_, ?_, ?_, ?_⟩
  · intro apiKeyOk call instrDb cases histories username method isAjax message
      caseSlug c s0 kvs hfind hactive hmiss hnotsaved hdata
    have hz : (if s0.activeCaseSlug ≠ some c.slug
        then resetSessionFor c.slug s0 else s0) = s0 := by
      rw [hactive]
      simp
    unfold stage_view
    simp only [hcontains, Bool.false_eq_true, if_false, hfind, hz, hmiss,
      hnotsaved, hdata, Bool.not_false, Bool.and_true, if_pos rfl]
    rfl
  · intro apiKeyOk call instrDb cases histories isAuth username method isAjax
      message caseSlug c s0 hfind hactive hmiss hsaved
    have hz : (if s0.activeCaseSlug ≠ some c.slug
        then resetSessionFor c.slug s0 else s0) = s0 := by
      rw [hactive]
      simp
    unfold stage_view
    simp only [hcontains, Bool.false_eq_true, if_false, hfind, hz, hmiss,
      hsaved, Bool.not_true, Bool.and_false, if_pos rfl]
    rfl
  · intro apiKeyOk call instrDb cases histories username method isAjax
      message caseSlug c s0 hfind hactive hmiss
    have hz : (if s0.activeCaseSlug ≠ some c.slug
        then resetSessionFor c.slug s0 else s0) = s0 := by
      rw [hactive]
      simp
    unfold stage_view
    simp only [hcontains, Bool.false_eq_true, if_false, hfind, hz, hmiss,
      Bool.false_and, if_pos rfl]
    rfl
  · intro apiKeyOk call instrDb cases histories isAuth username method isAjax
      message caseSlug stage s0 out hout
    exact stage_view_append_only apiKeyOk call instrDb cases histories isAuth
      username method isAjax message caseSlug stage s0 out hout
  · intro cases histories caseSlug s0
    unfold reset_case_view
    cases List.find? (fun c => c.slug == caseSlug) cases <;> rfl
  · intro apiKeyOk call instrDb cases slug reqs s h hs ha
    exact (runStageViews_saved apiKeyOk call instrDb cases slug reqs s h hs
      ha).1

/-- Witness for C8 at concrete data: the first authenticated summary visit
appends exactly one row and sets the flag; the second visit (flag set)
appends nothing. -/
theorem C8_case_history_lifecycle_witness :
    stage_view true okOracle [] [medsExampleCase] [] true "alice" .get false
        "" "ex" "summary" unsavedSession
      = some ⟨savedSession,
          [{ user := "alice", caseId := 1,
             chats := [("__summary__",
               .summaryNote (.str "") (.str "") .null)],
             completed_stages :=
               ["diagnostics", "first_exam", "meds", "reco", "dispo"],
             is_completed := true }],
          .summaryPage "chat/summary.html" true⟩
    ∧ (∀ row : CaseHistory,
        stage_view true okOracle [] [medsExampleCase] [row] true "alice" .get
            false "" "ex" "summary" savedSession
          = some ⟨savedSession, [row], .summaryPage "chat/summary.html" true⟩) := by
  constructor
  · rfl
  · intro row
    exact C8_case_history_lifecycle.2.1 true okOracle [] [medsExampleCase]
      [row] true "alice" .get false "" "ex" medsExampleCase savedSession rfl
      rfl (by decide) rfl

/-- Counterexample for C8 as stated: an authenticated user with every
core stage completed and the save flag unset reaches the summary stage,
yet because the model reply parses to a truthy non-dict JSON value
(`"[1]"`), the view crashes with an uncaught `AttributeError` at
`data.get("verdict", "")` — no response is produced and no `CaseHistory`
row is created at that moment, refuting "created exactly once, at the
moment the authenticated user reaches the summary stage". -/
theorem C8_counterexample :
    stage_view true nonDictOracle [] [medsExampleCase] [] true "alice" .get
        false "" "ex" "summary" unsavedSession = none
    ∧ summarySaveData (generate_summary_assessment true nonDictOracle
        medsExampleCase unsavedSession.chats) = none
    ∧ unsavedSession.caseSaved = false
    ∧ coreStages.filter
        (fun s => !unsavedSession.completedStages.contains s) = [] := by
  exact ⟨rfl, rfl, rfl, rfl⟩

end Przypadek
